import Mathlib

/-!
Verification development for the joint-command dispatch core of the
Mechaverse repository: the serial hardware bridge
(`src/components/viewer/urdfHardwareBridge.ts`), the joint-name resolver and
motion animation logic (`src/components/viewer/UrdfViewer.tsx`,
`src/components/viewer/urdfViewerHelpers.ts`).

The TypeScript code is embedded shallowly:

* JS `number` (IEEE double) is modelled as `ℚ` for angle values and `ℤ`/`ℕ`
  for integer positions and ids.  `Math.PI` is the exact rational value of
  the double constant.  `NaN`/`Infinity` inputs (dropped by the code's
  `Number.isFinite` guards) are outside the model, so those guards are
  trivially satisfied.
* A JS `Map` is an insertion-ordered association list.
* The asynchronous serial write is abstracted by a boolean oracle per flush
  tick (`true` = the write resolved, `false` = it rejected); everything
  else in a tick runs atomically, which matches the single-threaded
  cooperative scheduling of the host.
-/

namespace Mechaverse

/-- JS `Math.round`: round half toward positive infinity. -/
def jsRound (q : ℚ) : ℤ := ⌊q + 1/2⌋

/-- `clampInt` from urdfHardwareBridge.ts:
`Math.max(lo, Math.min(hi, Math.round(v)))`. -/
def clampInt (v : ℚ) (lo hi : ℤ) : ℤ := max lo (min hi (jsRound v))

/-- Re-clamping an already rounded integer value (`clampInt` applied to a
value that is already an integer behaves as a pure clamp). -/
def clampIntZ (v lo hi : ℤ) : ℤ := max lo (min hi v)

/-- The exact rational value of the IEEE-754 double `Math.PI`. -/
def jsPI : ℚ := 884279719003555 / 281474976710656

/-- `CMD_BASE` from urdfHardwareBridge.ts. -/
def CMD_BASE : ℕ := 30000

/-- `ALL_ID` from urdfHardwareBridge.ts. -/
def ALL_ID : ℕ := 254

/-- `makeSelectCode` from urdfHardwareBridge.ts; `none` models the thrown
`Error` for an id outside 1..254. -/
def makeSelectCode (dxlId : ℕ) : Option ℕ :=
  if dxlId = ALL_ID then some CMD_BASE
  else if 1 ≤ dxlId ∧ dxlId ≤ 254 then some (CMD_BASE + dxlId)
  else none

/-- `makeRc100PacketU16` from urdfHardwareBridge.ts:
`FF 55 lb ~lb hb ~hb` for the 16-bit value `data16 & 0xffff`. -/
def makeRc100PacketU16 (data16 : ℕ) : List ℕ :=
  let v := data16 % 65536
  let lb := v % 256
  let hb := (v / 256) % 256
  [0xff, 0x55, lb, lb ^^^ 0xff, hb, hb ^^^ 0xff]

/-! ## Joint name resolver (UrdfViewer.tsx) -/

/-- One character of `normKey`'s replacement pipeline: lowercase, then map
`.` and `-` and whitespace runs to `_` (run collapsing is done by
`collapseUnders` afterwards, which gives the same result as the JS regex
replacements dot-or-dash to underscore, whitespace-run to underscore, and
underscore-run collapse applied in sequence). -/
def normChar (c : Char) : Char :=
  let c := c.toLower
  if c = '.' ∨ c = '-' then '_'
  else if c.isWhitespace then '_'
  else c

/-- Collapse runs of `_` to a single `_` (the underscore-run regex step). -/
def collapseUnders : List Char → List Char
  | [] => []
  | [c] => [c]
  | a :: b :: rest =>
    if a = '_' ∧ b = '_' then collapseUnders (b :: rest)
    else a :: collapseUnders (b :: rest)

/-- Strip leading and trailing `_` runs (the edge-underscore regex step). -/
def trimUnders (l : List Char) : List Char :=
  ((l.dropWhile (fun c => c = '_')).reverse.dropWhile (fun c => c = '_')).reverse

/-- The regex step stripping a trailing `joint` or `jnt` (the alternation
tries `joint` first; anchored at the end, it strips at most one suffix). -/
def stripJointSuffix (l : List Char) : List Char :=
  if ("joint".data).isSuffixOf l then l.take (l.length - 5)
  else if ("jnt".data).isSuffixOf l then l.take (l.length - 3)
  else l

/-- The regex step stripping a trailing `_joint`. -/
def stripUnderJoint (l : List Char) : List Char :=
  if ("_joint".data).isSuffixOf l then l.take (l.length - 6) else l

/-- `normKey` from UrdfViewer.tsx.  Note the replacement order: edge
underscores are trimmed before the `joint`/`jnt` suffix is stripped, so
`normKey "l_arm_joint" = "l_arm_"` keeps its trailing underscore. -/
def normKey (s : String) : String :=
  ⟨stripUnderJoint (stripJointSuffix (trimUnders (collapseUnders (s.data.map normChar))))⟩

/-- JS `String.prototype.split("_")` on a character list (segments between
underscores, keeping empty segments like JS does). -/
def splitUnders : List Char → List Char → List String
  | [], acc => [⟨acc.reverse⟩]
  | c :: rest, acc =>
    if c = '_' then ⟨acc.reverse⟩ :: splitUnders rest []
    else splitUnders rest (c :: acc)

/-- `tokens` from UrdfViewer.tsx: split the normalized name on `_`, drop
empty segments, fold `left`/`right` to `l`/`r`. -/
def tokens (s : String) : List String :=
  ((splitUnders (normKey s).data []).filter (fun t => t ≠ "")).map
    (fun t => if t = "left" then "l" else if t = "right" then "r" else t)

/-- `tokenSim` from UrdfViewer.tsx: Jaccard similarity of the token sets. -/
def tokenSim (a b : String) : ℚ :=
  let A := (tokens a).dedup
  let B := (tokens b).dedup
  if A.isEmpty ∨ B.isEmpty then 0
  else
    let inter := (A.filter (fun x => B.contains x)).length
    let union := A.length + B.length - inter
    if union = 0 then 0 else (inter : ℚ) / (union : ℚ)

/-- One row update of the Levenshtein DP from UrdfViewer.tsx, for source
character `sc` against target characters `t`; `diag` is the previous row's
`dp[j-1]`, `left` the new row's entry `j-1`, and `row` the previous row's
entries from `j` on. -/
def levRowGo (sc : Char) : List Char → List ℕ → ℕ → ℕ → List ℕ
  | c :: ts, up :: rest, diag, left =>
    let cost := if sc = c then 0 else 1
    let v := min (up + 1) (min (left + 1) (diag + cost))
    v :: levRowGo sc ts rest up v
  | _, _, _, _ => []

/-- New DP row for source character number `i` (1-based). -/
def levRow (t : List Char) (sc : Char) (row : List ℕ) (i : ℕ) : List ℕ :=
  i :: levRowGo sc t (row.drop 1) (row.headD 0) i

/-- The DP core of `levenshtein` from UrdfViewer.tsx (edit distance with
unit costs), on already-extracted character lists. -/
def levCore (s t : List Char) : ℕ :=
  let n := s.length
  let m := t.length
  if n = 0 then m
  else if m = 0 then n
  else
    let fin := s.foldl (fun (acc : List ℕ × ℕ) sc => (levRow t sc acc.1 acc.2, acc.2 + 1))
      (List.range (m + 1), 1)
    fin.1.getLastD 0

/-- `levenshtein` from UrdfViewer.tsx — note that it applies `normKey` to
its own arguments. -/
def levenshtein (a b : String) : ℕ := levCore (normKey a).data (normKey b).data

/-- `editSim` from UrdfViewer.tsx.  Because `levenshtein` normalizes its
arguments again (and `normKey` is not idempotent), the distance is computed
on doubly-normalized strings while `maxLen` uses the singly-normalized
lengths, exactly as in the source. -/
def editSim (a b : String) : ℚ :=
  let s := normKey a
  let t := normKey b
  let dist := levenshtein s t
  let maxLen := max s.length t.length
  let maxLen := if maxLen = 0 then 1 else maxLen
  1 - (dist : ℚ) / (maxLen : ℚ)

/-- The weighted similarity score `0.6 * tokenSim + 0.4 * editSim` computed
for each candidate in the resolver's stage 3. -/
def simScore (mapped name : String) : ℚ :=
  6/10 * tokenSim mapped name + 4/10 * editSim mapped name

/-- JS `String.prototype.includes`: contiguous substring containment. -/
def strIncludes (hay needle : String) : Bool :=
  (List.range (hay.data.length + 1)).any (fun i => needle.data.isPrefixOf (hay.data.drop i))

/-- Stable insertion into a descending-by-score list: an element is placed
before the first strictly smaller score, after all `≥` scores, which
reproduces the output of JS's stable `sort((a, b) => b.score - a.score)`. -/
def insertDesc (x : String × ℚ) : List (String × ℚ) → List (String × ℚ)
  | [] => [x]
  | y :: ys => if y.2 ≤ x.2 then x :: y :: ys else y :: insertDesc x ys

/-- Stable sort descending by score (same output as the JS stable sort). -/
def sortByScoreDesc : List (String × ℚ) → List (String × ℚ)
  | [] => []
  | x :: xs => insertDesc x (sortByScoreDesc xs)

/-- `ResolveInfo` from UrdfViewer.tsx. -/
structure ResolveInfo where
  joint : Option String
  confidence : ℚ
  reason : String
  candidates : Option (List (String × ℚ))
deriving DecidableEq, Repr

/-- String-keyed association-list lookup (JS object property access). -/
def lookupStr (m : List (String × String)) (k : String) : Option String :=
  (m.find? (fun e => e.1 = k)).map (fun e => e.2)

/-- JS `String.prototype.toLowerCase` (per-character lowering). -/
def strToLower (s : String) : String := ⟨s.data.map Char.toLower⟩

/-- The `mapped` name of `resolveJointTarget`:
`map?.[reqRaw] ?? map?.[reqRaw.toLowerCase()] ?? map?.[normKey reqRaw] ?? reqRaw`. -/
def mappedName (requested : String) (map : Option (List (String × String))) : String :=
  match map with
  | none => requested
  | some m =>
    (((lookupStr m requested).orElse
      (fun _ => lookupStr m (strToLower requested))).orElse
      (fun _ => lookupStr m (normKey requested))).getD requested

/-- The scored candidate list of the resolver's stage 3: every live joint
scored, sorted descending (stable), top five kept. -/
def simScored (keys : List String) (mapped : String) : List (String × ℚ) :=
  (sortByScoreDesc (keys.map (fun name => (name, simScore mapped name)))).take 5

/-- Stage 3 of `resolveJointTarget` (UrdfViewer.tsx): similarity scoring
with the 0.78 floor and the 0.03 ambiguity margin, over the sorted
top-five candidate list. -/
def similarityStage (keys : List String) (mapped : String) : ResolveInfo :=
  let scored := simScored keys mapped
  match scored with
  | [] => ⟨none, 0, "no-candidates", none⟩
  | best :: rest =>
    if best.2 < 78/100 then ⟨none, best.2, "below-threshold", some scored⟩
    else
      match rest with
      | second :: _ =>
        if |best.2 - second.2| < 3/100 then
          ⟨none, best.2, "ambiguous", some scored⟩
        else ⟨some best.1, best.2, "similarity", some scored⟩
      | [] => ⟨some best.1, best.2, "similarity", some scored⟩

/-- `resolveJointTarget` from UrdfViewer.tsx.  The viewer argument is
replaced by the list of live joint names (`Object.keys(viewer.robot.joints)`,
in insertion order); the `!joints` guard (`"no-joints"`) concerns a missing
robot object and is outside the model. -/
def resolveJointTarget (keys : List String) (requested : String)
    (map : Option (List (String × String))) : ResolveInfo :=
  if keys.isEmpty then ⟨none, 0, "no-keys", none⟩
  else
    let mapped := mappedName requested map
    if mapped ∈ keys then
      ⟨some mapped, 1, if map.isSome then "explicit-map" else "exact", none⟩
    else
      let mappedNorm := normKey mapped
      match keys.find? (fun k => normKey k = mappedNorm) with
      | some nExact => ⟨some nExact, 98/100, "normalized-exact", none⟩
      | none =>
        match keys.find? (fun k =>
            strIncludes (normKey k) mappedNorm || strIncludes mappedNorm (normKey k)) with
        | some pmatch => ⟨some pmatch, 85/100, "includes", none⟩
        | none => similarityStage keys mapped

/-! ## Serial hardware bridge (urdfHardwareBridge.ts)

State and configuration of `setupViewerWsHardwareBridge`.  The `writer`
handle is live exactly while the session is connected, so its liveness is
folded into `connected`; the `writing` re-entrancy guard never triggers in
the sequential model (a tick runs atomically). -/

/-- A `{rad, pos}` pending value. -/
structure PendingVal where
  rad : ℚ
  pos : ℤ
deriving DecidableEq, Repr

/-- The two-phase transmit cursor (`phase: 0 = SELECT, 1 = POS`). -/
structure TxState where
  phase : ℕ
  id : ℕ
  val : PendingVal
deriving DecidableEq, Repr

/-- The mutable state owned by one bridge instance. -/
structure BridgeState where
  connected : Bool
  pending : List (ℕ × PendingVal)
  lastSent : List (ℕ × PendingVal)
  currentTarget : Option ℕ
  txState : Option TxState
  flushTimer : Bool
deriving DecidableEq, Repr

/-- JS `Map.prototype.get`. -/
def mapGet (m : List (ℕ × PendingVal)) (k : ℕ) : Option PendingVal :=
  (m.find? (fun e => e.1 = k)).map (fun e => e.2)

/-- JS `Map.prototype.delete` (drops the entry for `k`, if any). -/
def mapDelete (m : List (ℕ × PendingVal)) (k : ℕ) : List (ℕ × PendingVal) :=
  m.filter (fun e => e.1 ≠ k)

/-- JS `Map.prototype.set`: update in place if the key is present,
otherwise append (insertion order). -/
def mapSet : List (ℕ × PendingVal) → ℕ → PendingVal → List (ℕ × PendingVal)
  | [], k, v => [(k, v)]
  | e :: rest, k, v => if e.1 = k then (k, v) :: rest else e :: mapSet rest k v

/-- Optional URDF joint limits (`viewer.jointLimits[joint]`), each bound
present only when it is a number. -/
structure JointLim where
  lower : Option ℚ
  upper : Option ℚ
deriving DecidableEq, Repr

/-- The bridge options that the embedded behavior depends on, after the
defaulting in `setupViewerWsHardwareBridge` (`radToPos` is the default
URDF-limit based linear mapping). -/
structure BridgeConfig where
  jointNameMap : List (String × String)
  allowUnmappedJoints : Bool
  deadbandRad : ℚ
  posMin : ℤ
  posMax : ℤ
  jointLimits : List (String × JointLim)
deriving Repr

/-- Lookup in the viewer's `jointLimits` record. -/
def lookupLim (m : List (String × JointLim)) (k : String) : Option JointLim :=
  (m.find? (fun e => e.1 = k)).map (fun e => e.2)

/-- `clampWithViewerLimits` from urdfHardwareBridge.ts. -/
def clampWithViewerLimits (cfg : BridgeConfig) (joint : String) (value : ℚ) : ℚ :=
  match lookupLim cfg.jointLimits joint with
  | none => value
  | some lim =>
    let v := match lim.lower with | some lo => max lo value | none => value
    match lim.upper with | some hi => min hi v | none => v

/-- Decimal-digit parse of a nonempty all-digit string (the shape of
`Number(raw)` for the motor-id strings the bridge accepts). -/
def strToDigits (s : String) : Option ℕ :=
  if s.data ≠ [] ∧ s.data.all (fun c => c.isDigit) then
    some (s.data.foldl (fun n c => n * 10 + (c.toNat - '0'.toNat)) 0)
  else none

/-- `getDxlId` from urdfHardwareBridge.ts.  `Number(raw)` is modelled by
`strToDigits`; ids are integers 1..254 (a fractional-id string would be
rejected here, while JS would carry the fraction into an invalid packet —
no caller produces one). -/
def getDxlId (cfg : BridgeConfig) (viewerJoint : String) : Option ℕ :=
  if ¬cfg.allowUnmappedJoints ∧ (lookupStr cfg.jointNameMap viewerJoint).isNone then none
  else
    let raw := (lookupStr cfg.jointNameMap viewerJoint).getD viewerJoint
    match strToDigits raw with
    | none => none
    | some id => if id < 1 ∨ id > 254 then none else some id

/-- `defaultRadToPosFactory` from urdfHardwareBridge.ts: linear map of the
clamped angle from the joint's URDF limits (default `[-π, π]`) onto
`[posMin, posMax]`; midpoint if the range is degenerate.  Rationals are
always finite, so the `Number.isFinite` guards reduce to `hi = lo`. -/
def defaultRadToPos (cfg : BridgeConfig) (viewerJoint : String) (rad : ℚ) : ℤ :=
  let lim := lookupLim cfg.jointLimits viewerJoint
  let lo := (lim.bind (fun l => l.lower)).getD (-jsPI)
  let hi := (lim.bind (fun l => l.upper)).getD jsPI
  if hi = lo then clampInt (((cfg.posMin : ℚ) + (cfg.posMax : ℚ)) / 2) cfg.posMin cfg.posMax
  else
    let r := max lo (min hi rad)
    let t := (r - lo) / (hi - lo)
    clampInt ((cfg.posMin : ℚ) + t * ((cfg.posMax : ℚ) - (cfg.posMin : ℚ))) cfg.posMin cfg.posMax

/-- The synchronous effect of `scheduleFlush`: arm the timer if none is
pending and the session is live (re-entrant calls are no-ops). -/
def scheduleFlush (s : BridgeState) : BridgeState :=
  if s.flushTimer then s
  else if ¬s.connected then s
  else { s with flushTimer := true }

/-- The `prev` value consulted by `queueJoint`'s deadband and
position-deduplication checks:
`pending.get(dxlId) ?? lastSent.get(dxlId)`. -/
def prevVal (s : BridgeState) (dxlId : ℕ) : Option PendingVal :=
  match mapGet s.pending dxlId with
  | some p => some p
  | none => mapGet s.lastSent dxlId

/-- `queueJoint` from urdfHardwareBridge.ts.  `radValue : ℚ` is always
finite, so the `Number.isFinite` early-out is vacuous here. -/
def queueJoint (cfg : BridgeConfig) (s : BridgeState) (viewerJoint : String)
    (radValue : ℚ) : BridgeState :=
  match getDxlId cfg viewerJoint with
  | none => s
  | some dxlId =>
    let prev := prevVal s dxlId
    let dropDeadband := match prev with
      | some p => decide (|p.rad - radValue| < cfg.deadbandRad)
      | none => false
    if dropDeadband then s
    else
      let pos := clampInt ((defaultRadToPos cfg viewerJoint radValue : ℤ) : ℚ)
        cfg.posMin cfg.posMax
      let dropSamePos := match prev with
        | some p => decide (p.pos = pos)
        | none => false
      if dropSamePos then s
      else
        scheduleFlush { s with
          pending := mapSet (mapDelete s.pending dxlId) dxlId ⟨radValue, pos⟩ }

/-- One attempted serial write, as observed on the wire: which motor the
packet addresses, and whether the `writer.write` promise resolved. -/
inductive Event where
  | select (id : ℕ) (ok : Bool)
  | position (id : ℕ) (pos : ℤ) (ok : Bool)
deriving DecidableEq, Repr

/-- The motor a write event addresses. -/
def Event.motor : Event → ℕ
  | .select id _ => id
  | .position id _ _ => id

/-- Whether the write resolved. -/
def Event.ok : Event → Bool
  | .select _ ok => ok
  | .position _ _ ok => ok

/-- Result of one flush-timer callback: the new state, the write it
attempted (if any), and the `connected` values reported through `onStatus`
during the tick (`safeWriteU16` reports `connected = false` when a write
rejects). -/
structure TickResult where
  state : BridgeState
  event : Option Event
  statuses : List Bool
deriving Repr

/-- The body of the `setTimeout` callback inside `scheduleFlush`
(urdfHardwareBridge.ts).  `ok` abstracts the outcome of the single awaited
`writer.write` of this tick; on failure `safeWriteU16` flips `connected`,
emits a status, and the caller restores the in-flight value into `pending`
(move-to-end).  The `finally` block re-arms the timer while work remains. -/
def flushTick (cfg : BridgeConfig) (ok : Bool) (s0 : BridgeState) : TickResult :=
  let s := { s0 with flushTimer := false }
  if ¬s.connected then ⟨s, none, []⟩
  else
    let body : TickResult :=
      match s.txState with
      | some tx =>
        if tx.phase = 0 then
          -- SELECT phase: write `makeSelectCode tx.id`
          if ok then
            ⟨{ s with currentTarget := some tx.id, txState := some { tx with phase := 1 } },
              some (.select tx.id true), []⟩
          else
            ⟨{ s with
                connected := false,
                pending := mapSet (mapDelete s.pending tx.id) tx.id tx.val,
                txState := none },
              some (.select tx.id false), [false]⟩
        else
          -- POS phase: refresh the value from `pending` just before sending
          let latest := mapGet s.pending tx.id
          let val := latest.getD tx.val
          let pending1 := match latest with
            | some _ => mapDelete s.pending tx.id
            | none => s.pending
          let p := clampIntZ val.pos cfg.posMin cfg.posMax
          if ok then
            ⟨{ s with
                pending := pending1,
                lastSent := mapSet s.lastSent tx.id val,
                txState := none },
              some (.position tx.id p true), []⟩
          else
            ⟨{ s with
                connected := false,
                pending := mapSet (mapDelete pending1 tx.id) tx.id val,
                txState := none },
              some (.position tx.id p false), [false]⟩
      | none =>
        -- pop the most recently touched pending entry
        match s.pending.getLast? with
        | none => ⟨s, none, []⟩
        | some (lastId, lastVal) =>
          let pending1 := mapDelete s.pending lastId
          if s.currentTarget = some lastId then
            let p := clampIntZ lastVal.pos cfg.posMin cfg.posMax
            if ok then
              ⟨{ s with
                  pending := pending1,
                  lastSent := mapSet s.lastSent lastId lastVal },
                some (.position lastId p true), []⟩
            else
              ⟨{ s with
                  connected := false,
                  pending := mapSet (mapDelete pending1 lastId) lastId lastVal },
                some (.position lastId p false), [false]⟩
          else
            ⟨{ s with pending := pending1, txState := some ⟨0, lastId, lastVal⟩ }, none, []⟩
    let s1 := body.state
    let s2 := if s1.connected ∧ (s1.txState.isSome ∨ s1.pending ≠ []) then scheduleFlush s1
      else s1
    ⟨s2, body.event, body.statuses⟩

/-- Run a sequence of flush ticks.  A tick only happens while a timer is
armed (`flushTimer`); each list element is that tick's write outcome.
Returns the final state and the trace of attempted writes. -/
def runTicks (cfg : BridgeConfig) : List Bool → BridgeState → BridgeState × List Event
  | [], s => (s, [])
  | ok :: rest, s =>
    if ¬s.flushTimer then (s, [])
    else
      let r := flushTick cfg ok s
      let next := runTicks cfg rest r.state
      (next.1, r.event.toList ++ next.2)

/-- The successfully transmitted position writes in a trace, as
`(motor, position)` pairs. -/
def posSent (evs : List Event) : List (ℕ × ℤ) :=
  evs.filterMap (fun e => match e with
    | .position id p true => some (id, p)
    | _ => none)

/-- Trace checker for the select/position protocol: scanning left to
right while tracking the motor addressed by the last successful select, a
position write for motor `M` is admitted only while `M` is the addressed
motor. -/
def posGuarded : Option ℕ → List Event → Bool
  | _, [] => true
  | _, .select m true :: rest => posGuarded (some m) rest
  | _, .select _ false :: rest => posGuarded none rest
  | c, .position m _ _ :: rest => c = some m && posGuarded c rest

/-- A bridge state as freshly set up and connected: nothing pending,
nothing sent, no addressed motor, no transmit cursor, no timer. -/
def freshConnected : BridgeState :=
  ⟨true, [], [], none, none, false⟩

/-! ## Motion animation durations -/

/-- The per-motion animation duration computed by `applyMotionsToViewer`
(UrdfViewer.tsx): `raw = m.time` when it is a positive number, else the
default (350 ms unless overridden); values under 20 are treated as seconds
and scaled to milliseconds. -/
def motionDurationMs (time : Option ℚ) (defaultDurationMs : ℚ) : ℚ :=
  let raw := match time with
    | some t => if 0 < t then t else defaultDurationMs
    | none => defaultDurationMs
  if raw < 20 then raw * 1000 else raw

/-- The per-motion animation duration computed by
`applyJointMotionsToViewer` (urdfViewerHelpers.ts): any positive `m.time`
is unconditionally treated as seconds (`m.time * 1000`), with no
under-20 heuristic. -/
def helperMotionDurationMs (time : Option ℚ) (defaultDurationMs : ℚ) : ℚ :=
  match time with
  | some t => if 0 < t then t * 1000 else defaultDurationMs
  | none => defaultDurationMs

/-! ## The viewer's joint-write slot and `close()` (claim C7)

The viewer's `setJointValue` property is a single mutable slot holding a
function value.  Function identity (which closure the slot holds) is what
the wrap/unwrap contract is about, so the slot is modelled as a chain of
decorators over the viewer's raw primitive — `limitWrap` is the override
installed by `setupJointLimits` (urdfViewerHelpers.ts), `bridgeWrap` the
one installed by `setupViewerWsHardwareBridge`. -/

/-- A function value that may occupy the `setJointValue` slot. -/
inductive WriteFn where
  | raw
  | limitWrap (inner : WriteFn)
  | bridgeWrap (inner : WriteFn)
deriving DecidableEq, Repr

/-- The slots of the viewer object the wrapping logic touches. -/
structure ViewerSlots where
  slot : WriteFn
  originalSetJointValueProp : Option WriteFn
deriving DecidableEq, Repr

/-- The joint-limit part of `setupJointLimits` (urdfViewerHelpers.ts):
store the current slot in `viewer.originalSetJointValue` (once) and
replace the slot with the clamping override, which chains to the stored
function. -/
def setupJointLimitsWrap (v : ViewerSlots) : ViewerSlots :=
  let orig := v.originalSetJointValueProp.getD v.slot
  ⟨WriteFn.limitWrap orig, some orig⟩

/-- A bridge handle: the viewer it wraps, the `originalSetJointValue`
captured at wrap time, and the bridge's mutable state. -/
structure BridgeHandle where
  viewer : ViewerSlots
  originalSetJointValue : WriteFn
  st : BridgeState
deriving DecidableEq, Repr

/-- The wrapping part of `setupViewerWsHardwareBridge`: capture
`viewer.setJointValue` and replace it with the bridge wrapper (the bridge
starts disconnected with empty queues and no timer). -/
def setupBridgeWrap (v : ViewerSlots) : BridgeHandle :=
  ⟨{ v with slot := WriteFn.bridgeWrap v.slot }, v.slot,
    ⟨false, [], [], none, none, false⟩⟩

/-- `close()` from urdfHardwareBridge.ts: restore the captured
`setJointValue`, cancel the flush timer, clear `pending`, `lastSent`,
`txState` and `currentTarget`, then fire-and-forget `disconnect()` (whose
synchronous prefix drops `connected`). -/
def closeBridge (b : BridgeHandle) : BridgeHandle :=
  { b with
    viewer := { b.viewer with slot := b.originalSetJointValue },
    st := ⟨false, [], [], none, none, false⟩ }

/-! ## Incoming state applicator (claim C8)

The network-variant bridge holding `applyStateToViewer` is not part of the
sources under verification; it is modelled from the spec below. -/

/-- A joint pose map of the viewer. -/
def setPose (poses : List (String × ℚ)) (j : String) (v : ℚ) : List (String × ℚ) :=
  match poses with
  | [] => [(j, v)]
  | e :: rest => if e.1 = j then (j, v) :: rest else e :: setPose rest j v

/-- The world visible to the network bridge: the viewer's pose and the
outbound coalescer state. -/
structure WsWorld where
  poses : List (String × ℚ)
  bridge : BridgeState
deriving Repr

/-- The viewer's original (unwrapped) joint-write primitive: it only
updates the rendered pose. -/
def rawSetJointValue (w : WsWorld) (j : String) (v : ℚ) : WsWorld :=
  { w with poses := setPose w.poses j v }

/-- The bridge-wrapped joint-write function: optimistic local pose update
followed by `queueJoint` into the outbound coalescer. -/
def wrappedSetJointValue (cfg : BridgeConfig) (w : WsWorld) (j : String) (v : ℚ) : WsWorld :=
  let clamped := clampWithViewerLimits cfg j v
  let w1 := rawSetJointValue w j clamped
  { w1 with bridge := queueJoint cfg w1.bridge j clamped }

/-- Inverse lookup in the configured joint name map (hardware name back to
viewer joint name). -/
def invLookup (m : List (String × String)) (hw : String) : Option String :=
  (m.find? (fun e => e.2 = hw)).map (fun e => e.1)

/-- Modelled from the spec: `applyStateToViewer` of the network-variant
Incoming State Applicator (spec section 4.4), whose implementation is not
among the sources.  For each telemetry entry: map the hardware joint id
back to the viewer joint name (inverse of the configured name map,
identity if unmapped), convert degrees to radians when `units = "deg"`,
clamp to the viewer's joint limits, and write through the original
(unwrapped) joint-write function. -/
def applyStateToViewer (cfg : BridgeConfig) (w : WsWorld)
    (entries : List (String × ℚ)) (degUnits : Bool) : WsWorld :=
  entries.foldl (fun acc e =>
    let j := (invLookup cfg.jointNameMap e.1).getD e.1
    let rad := if degUnits then e.2 * jsPI / 180 else e.2
    let v := clampWithViewerLimits cfg j rad
    rawSetJointValue acc j v) w

/-! ## Concrete instances used by counterexamples and witnesses -/

/-- A concrete bridge configuration: joint `"j"` mapped to motor 1, the
default deadband `0.002`, the default position range `0..1023`, and URDF
limits `[0, 1023]` for `"j"` (making the default rad-to-pos map the
identity up to rounding). -/
def cfgId : BridgeConfig :=
  ⟨[("j", "1")], false, 1/500, 0, 1023, [("j", ⟨some 0, some 1023⟩)]⟩

/-- The C2 counterexample run: values `0`, `1.4999`, `1.5009` queued for
`"j"` within one flush interval from a fresh connected bridge. -/
def c2runState : BridgeState :=
  queueJoint cfgId
    (queueJoint cfgId (queueJoint cfgId freshConnected "j" 0) "j" (14999/10000))
    "j" (15009/10000)

/-- A bridge state whose transmit cursor is in the SELECT phase for
motor 1 (used to exercise the write-failure path). -/
def selPhaseState : BridgeState :=
  ⟨true, [], [], none, some ⟨0, 1, ⟨0, 5⟩⟩, true⟩

/-- A bridge state with a pending entry for the currently-addressed
motor 1 and a second pending motor 2 (used to exercise the invariants). -/
def busyState : BridgeState :=
  ⟨true, [(2, ⟨1, 600⟩), (1, ⟨1/2, 300⟩)], [], some 1, none, true⟩

/-- A connected bridge that has already transmitted `rad = 0` (position 0
under `cfgId`) for motor 1, with nothing pending (used to exercise the
deadband and position-deduplication suppression against `lastSent`). -/
def sentZeroState : BridgeState :=
  ⟨true, [], [(1, ⟨0, 0⟩)], some 1, none, false⟩

/-! ## Helper lemmas -/

set_option maxRecDepth 8192 in
theorem xor255_eq (n : ℕ) (h : n < 256) : n ^^^ 255 = 255 - n := by
  have : ∀ m, m < 256 → m ^^^ 255 = 255 - m := by decide
  exact this n h

theorem mapGet_mapSet_self (m : List (ℕ × PendingVal)) (k : ℕ) (v : PendingVal) :
    mapGet (mapSet m k v) k = some v := by
  induction m with
  | nil => simp [mapGet, mapSet]
  | cons e rest ih =>
    by_cases h : e.1 = k
    · simp [mapSet, h, mapGet]
    · simp only [mapSet, if_neg h]
      simpa [mapGet, List.find?, h] using ih

theorem mapGet_mapSet_ne (m : List (ℕ × PendingVal)) (k k' : ℕ) (v : PendingVal)
    (h : k' ≠ k) : mapGet (mapSet m k v) k' = mapGet m k' := by
  induction m with
  | nil =>
    simp only [mapSet, mapGet]
    rw [List.find?_cons_of_neg _ (by simpa using Ne.symm h), List.find?_nil]
  | cons e rest ih =>
    by_cases he : e.1 = k
    · simp only [mapSet, if_pos he, mapGet]
      rw [List.find?_cons_of_neg _ (by simpa using Ne.symm h),
        List.find?_cons_of_neg _ (by simp [he, Ne.symm h])]
    · simp only [mapSet, if_neg he]
      by_cases he' : e.1 = k'
      · simp only [mapGet]
        rw [List.find?_cons_of_pos _ (by simpa using he'),
          List.find?_cons_of_pos _ (by simpa using he')]
      · simp only [mapGet] at ih ⊢
        rw [List.find?_cons_of_neg _ (by simpa using he'),
          List.find?_cons_of_neg _ (by simpa using he')]
        exact ih

theorem mapGet_mapDelete_ne (m : List (ℕ × PendingVal)) (k k' : ℕ) (h : k' ≠ k) :
    mapGet (mapDelete m k) k' = mapGet m k' := by
  induction m with
  | nil => simp [mapGet, mapDelete]
  | cons e rest ih =>
    by_cases he : e.1 = k
    · have hne : ¬e.1 = k' := by rw [he]; exact Ne.symm h
      simp only [mapDelete, mapGet] at ih ⊢
      rw [List.filter_cons_of_neg (by simpa using he),
        List.find?_cons_of_neg _ (by simpa using hne)]
      exact ih
    · by_cases he' : e.1 = k'
      · simp only [mapDelete, mapGet] at ih ⊢
        rw [List.filter_cons_of_pos (by simpa using he),
          List.find?_cons_of_pos _ (by simpa using he'),
          List.find?_cons_of_pos _ (by simpa using he')]
      · simp only [mapDelete, mapGet] at ih ⊢
        rw [List.filter_cons_of_pos (by simpa using he),
          List.find?_cons_of_neg _ (by simpa using he'),
          List.find?_cons_of_neg _ (by simpa using he')]
        exact ih

theorem not_mem_keys_mapDelete (m : List (ℕ × PendingVal)) (k : ℕ) :
    ∀ e ∈ mapDelete m k, e.1 ≠ k := by
  intro e he
  have := List.of_mem_filter he
  simpa using this

theorem mapSet_of_keys_ne (m : List (ℕ × PendingVal)) (k : ℕ) (v : PendingVal)
    (h : ∀ e ∈ m, e.1 ≠ k) : mapSet m k v = m ++ [(k, v)] := by
  induction m with
  | nil => rfl
  | cons e rest ih =>
    have he : e.1 ≠ k := h e (by simp)
    simp only [mapSet, if_neg he, List.cons_append, List.cons.injEq, true_and]
    exact ih (fun x hx => h x (by simp [hx]))

theorem mapSet_mapDelete_append (m : List (ℕ × PendingVal)) (k : ℕ) (v : PendingVal) :
    mapSet (mapDelete m k) k v = mapDelete m k ++ [(k, v)] :=
  mapSet_of_keys_ne _ _ _ (not_mem_keys_mapDelete m k)

theorem getLast?_mapSet_mapDelete (m : List (ℕ × PendingVal)) (k : ℕ) (v : PendingVal) :
    (mapSet (mapDelete m k) k v).getLast? = some (k, v) := by
  rw [mapSet_mapDelete_append]
  simp

theorem mapGet_mapSet_mapDelete_self (m : List (ℕ × PendingVal)) (k : ℕ) (v : PendingVal) :
    mapGet (mapSet (mapDelete m k) k v) k = some v :=
  mapGet_mapSet_self _ _ _

theorem scheduleFlush_connected (s : BridgeState) :
    (scheduleFlush s).connected = s.connected := by
  unfold scheduleFlush; split_ifs <;> rfl

theorem scheduleFlush_pending (s : BridgeState) :
    (scheduleFlush s).pending = s.pending := by
  unfold scheduleFlush; split_ifs <;> rfl

theorem scheduleFlush_lastSent (s : BridgeState) :
    (scheduleFlush s).lastSent = s.lastSent := by
  unfold scheduleFlush; split_ifs <;> rfl

theorem scheduleFlush_currentTarget (s : BridgeState) :
    (scheduleFlush s).currentTarget = s.currentTarget := by
  unfold scheduleFlush; split_ifs <;> rfl

theorem scheduleFlush_txState (s : BridgeState) :
    (scheduleFlush s).txState = s.txState := by
  unfold scheduleFlush; split_ifs <;> rfl

theorem clampIntZ_clampInt (v : ℚ) (lo hi : ℤ) :
    clampIntZ (clampInt v lo hi) lo hi = clampInt v lo hi := by
  unfold clampIntZ clampInt
  generalize jsRound v = r
  rcases le_total lo hi with h | h <;>
    rcases le_total r hi with h1 | h1 <;>
    rcases le_total r lo with h2 | h2 <;>
    simp [max_def, min_def] <;> omega

/-- Under `cfgId` (limits `[0, 1023]` mapped onto positions `0..1023`),
the default rad-to-pos map for `"j"` is clamping plus rounding. -/
theorem defaultRadToPos_cfgId (v : ℚ) :
    defaultRadToPos cfgId "j" v = clampInt (max 0 (min 1023 v)) 0 1023 := by
  unfold defaultRadToPos
  rw [show lookupLim cfgId.jointLimits "j" = some ⟨some 0, some 1023⟩ from by decide]
  simp only [Option.bind_some, Option.getD_some]
  rw [if_neg (by norm_num)]
  congr 1
  have h : cfgId.posMin = 0 ∧ cfgId.posMax = 1023 := by decide
  rw [h.1, h.2]
  push_cast
  field_simp

/-! ## Claim theorems -/

/-- Claim C5: for every 16-bit input value `v` in `[0, 65535]`,
`makeRc100PacketU16` emits exactly the 6-byte frame
`[0xFF, 0x55, lowByte, complement lowByte, highByte, complement highByte]`
with `v` encoded little-endian: the 4th and 6th bytes are the bitwise
complements mod 256 of the 3rd and 5th bytes, and
`lowByte + 256 * highByte = v`. -/
theorem c5_checksum_correctness (v : ℕ) (h : v ≤ 65535) :
    makeRc100PacketU16 v =
      [0xff, 0x55, v % 256, 255 - v % 256, v / 256, 255 - v / 256] ∧
    v % 256 + 256 * (v / 256) = v := by
  constructor
  · unfold makeRc100PacketU16
    have h1 : v % 65536 = v := Nat.mod_eq_of_lt (by omega)
    have h2 : v / 256 < 256 := by omega
    have h3 : v / 256 % 256 = v / 256 := Nat.mod_eq_of_lt h2
    simp only [h1, h3]
    rw [xor255_eq _ (Nat.mod_lt _ (by norm_num)), xor255_eq _ h2]
  · omega

/-- Witness for C5 at `v = 0xABCD`. -/
theorem c5_checksum_correctness_witness :
    43981 ≤ 65535 ∧
    (makeRc100PacketU16 43981 =
        [0xff, 0x55, 43981 % 256, 255 - 43981 % 256, 43981 / 256, 255 - 43981 / 256] ∧
      43981 % 256 + 256 * (43981 / 256) = 43981) :=
  ⟨by decide, c5_checksum_correctness 43981 (by decide)⟩

/-- Claim C9 counterexample: the claim's duration rule does not hold for
`applyJointMotionsToViewer` (urdfViewerHelpers.ts), one of the two cited
motion-batch implementations: a motion with `time = 100` gets duration
`100000` ms there (every positive time is scaled by 1000), while the claim
prescribes `100` ms (no scaling at or above 20). -/
theorem c9_counterexample :
    helperMotionDurationMs (some 100) 350 = 100000 ∧
    ¬helperMotionDurationMs (some 100) 350 = 100 ∧
    motionDurationMs (some 100) 350 = 100 := by
  refine ⟨?_, ?_, ?_⟩ <;> norm_num [helperMotionDurationMs, motionDurationMs]

/-- Claim C9 (amended): in `applyMotionsToViewer` (UrdfViewer.tsx) the
per-joint duration is the motion's own positive `time` with the under-20
seconds heuristic, and the 350 ms default otherwise; in
`applyJointMotionsToViewer` (urdfViewerHelpers.ts) every positive `time`
is unconditionally scaled by 1000. -/
theorem c9_duration_rule (t d : ℚ) :
    (0 < t → motionDurationMs (some t) d = if t < 20 then t * 1000 else t) ∧
    (t ≤ 0 → motionDurationMs (some t) d = motionDurationMs none d) ∧
    motionDurationMs none 350 = 350 ∧
    (0 < t → helperMotionDurationMs (some t) d = t * 1000) ∧
    (t ≤ 0 → helperMotionDurationMs (some t) d = d) := by
  refine ⟨fun h => ?_, fun h => ?_, by norm_num [motionDurationMs], fun h => ?_, fun h => ?_⟩
  · simp [motionDurationMs, if_pos h]
  · simp [motionDurationMs, if_neg (not_lt.mpr h)]
  · simp [helperMotionDurationMs, if_pos h]
  · simp [helperMotionDurationMs, if_neg (not_lt.mpr h)]

/-- Witness for C9 at `time = 5` (a sub-20 value, scaled to 5000 ms). -/
theorem c9_duration_rule_witness :
    (0 : ℚ) < 5 ∧
    (motionDurationMs (some 5) 350 = if (5 : ℚ) < 20 then 5 * 1000 else 5) ∧
    helperMotionDurationMs (some 5) 350 = 5 * 1000 :=
  ⟨by norm_num, (c9_duration_rule 5 350).1 (by norm_num),
    (c9_duration_rule 5 350).2.2.2.1 (by norm_num)⟩

/-- Claim C7: `close()` restores exactly the function value captured when
the bridge wrapped `viewer.setJointValue` (so closing a bridge set up on
top of the joint-limit enforcer restores the enforcer's wrapper, not the
raw viewer primitive), and synchronously cancels the flush timer and
clears `pending`, `lastSent`, `txState` and `currentTarget`. -/
theorem c7_close_restores_captured_writer :
    (∀ b : BridgeHandle,
      (closeBridge b).viewer.slot = b.originalSetJointValue ∧
      (closeBridge b).st.flushTimer = false ∧
      (closeBridge b).st.pending = [] ∧
      (closeBridge b).st.lastSent = [] ∧
      (closeBridge b).st.txState = none ∧
      (closeBridge b).st.currentTarget = none) ∧
    (∀ v : ViewerSlots, (closeBridge (setupBridgeWrap v)).viewer.slot = v.slot) ∧
    ((closeBridge (setupBridgeWrap (setupJointLimitsWrap ⟨WriteFn.raw, none⟩))).viewer.slot
        = WriteFn.limitWrap WriteFn.raw ∧
      WriteFn.limitWrap WriteFn.raw ≠ WriteFn.raw) :=
  ⟨fun _ => ⟨rfl, rfl, rfl, rfl, rfl, rfl⟩, fun _ => rfl, rfl, by decide⟩

/-- Claim C8 (spec-modelled): applying incoming actuator telemetry writes
pose updates through the original (unwrapped) joint-write function, so it
leaves the outbound coalescer state untouched and produces no outbound
transmission, regardless of coalescer state. -/
theorem c8_echo_suppression (cfg : BridgeConfig) (w : WsWorld)
    (entries : List (String × ℚ)) (degUnits : Bool) :
    (applyStateToViewer cfg w entries degUnits).bridge = w.bridge ∧
    ∀ oks, (runTicks cfg oks (applyStateToViewer cfg w entries degUnits).bridge).2
      = (runTicks cfg oks w.bridge).2 := by
  have key : ∀ (es : List (String × ℚ)) (acc : WsWorld),
      (applyStateToViewer cfg acc es degUnits).bridge = acc.bridge := by
    intro es
    induction es with
    | nil => intro acc; rfl
    | cons e rest ih =>
      intro acc
      have step : applyStateToViewer cfg acc (e :: rest) degUnits
          = applyStateToViewer cfg
            (rawSetJointValue acc ((invLookup cfg.jointNameMap e.1).getD e.1)
              (clampWithViewerLimits cfg ((invLookup cfg.jointNameMap e.1).getD e.1)
                (if degUnits then e.2 * jsPI / 180 else e.2))) rest degUnits := rfl
      rw [step, ih]
      rfl
  exact ⟨key entries w, fun oks => by rw [key entries w]⟩

/-- Claim C1 counterexample: with live joints
`["l_arm_joint", "r_arm_joint"]` and requested name `"arm"` (no explicit
map), `resolveJointTarget` does not return `joint: null` with reason
`ambiguous`; the earlier substring stage fires first, because
`normKey "l_arm_joint" = "l_arm_"` (the edge-trim runs before the suffix
strip, keeping the trailing underscore) contains `"arm"`, so the result is
`l_arm_joint` with reason `includes` and confidence 0.85. -/
theorem c1_counterexample :
    (resolveJointTarget ["l_arm_joint", "r_arm_joint"] "arm" none).joint
        = some "l_arm_joint" ∧
    (resolveJointTarget ["l_arm_joint", "r_arm_joint"] "arm" none).reason = "includes" ∧
    (resolveJointTarget ["l_arm_joint", "r_arm_joint"] "arm" none).confidence = 85/100 ∧
    (resolveJointTarget ["l_arm_joint", "r_arm_joint"] "arm" none).joint ≠ none ∧
    (resolveJointTarget ["l_arm_joint", "r_arm_joint"] "arm" none).reason ≠ "ambiguous" :=
  ⟨by decide, by decide, rfl, by decide, by decide⟩

/-- Single queueJoint call suppressed by the deadband when the stored
comparison value is within `deadbandRad` of the new value. -/
theorem queueJoint_deadband_drop (cfg : BridgeConfig) (s : BridgeState) (j : String)
    (id : ℕ) (p : PendingVal) (v : ℚ)
    (hid : getDxlId cfg j = some id)
    (hprev : prevVal s id = some p)
    (hdrop : |p.rad - v| < cfg.deadbandRad) :
    queueJoint cfg s j v = s := by
  unfold queueJoint
  rw [hid]
  simp only [hprev, decide_eq_true_eq]
  rw [if_pos hdrop]

/-- Claim C3: once a value has been transmitted for a mapped joint, any
number of `queueJoint` calls with values within `deadbandRad` of the last
transmitted value cause no state change at all — in particular zero
additional transmissions — because the deadband delta is computed against
`lastSent` when nothing is pending for the joint. -/
theorem c3_deadband_idempotence (cfg : BridgeConfig) (j : String) (id : ℕ)
    (p : PendingVal) (s : BridgeState) (vs : List ℚ)
    (hid : getDxlId cfg j = some id)
    (hpend : mapGet s.pending id = none)
    (hlast : mapGet s.lastSent id = some p)
    (hvs : ∀ v ∈ vs, |p.rad - v| < cfg.deadbandRad) :
    vs.foldl (fun st v => queueJoint cfg st j v) s = s ∧
    ∀ oks, (runTicks cfg oks (vs.foldl (fun st v => queueJoint cfg st j v) s)).2
      = (runTicks cfg oks s).2 := by
  have hprev : prevVal s id = some p := by
    unfold prevVal
    rw [hpend, hlast]
  have step : ∀ v ∈ vs, queueJoint cfg s j v = s := fun v hv =>
    queueJoint_deadband_drop cfg s j id p v hid hprev (hvs v hv)
  have key : vs.foldl (fun st v => queueJoint cfg st j v) s = s := by
    induction vs with
    | nil => rfl
    | cons v rest ih =>
      rw [List.foldl_cons, step v (by simp)]
      exact ih (fun w hw => hvs w (by simp [hw])) (fun w hw => step w (by simp [hw]))
  exact ⟨key, fun oks => by rw [key]⟩

/-- Witness for C3: after `sentZeroState` transmitted `rad = 0` for
motor 1, three sub-deadband writes (`0.001`, `-0.0015`, `0.0019`) leave
the bridge state untouched. -/
theorem c3_deadband_idempotence_witness :
    getDxlId cfgId "j" = some 1 ∧
    mapGet sentZeroState.pending 1 = none ∧
    mapGet sentZeroState.lastSent 1 = some ⟨0, 0⟩ ∧
    (∀ v ∈ [(1 : ℚ)/1000, -(15/10000), 19/10000], |(0 : ℚ) - v| < cfgId.deadbandRad) ∧
    [(1 : ℚ)/1000, -(15/10000), 19/10000].foldl
        (fun st v => queueJoint cfgId st "j" v) sentZeroState
      = sentZeroState := by
  have hvs : ∀ v ∈ [(1 : ℚ)/1000, -(15/10000), 19/10000],
      |(0 : ℚ) - v| < cfgId.deadbandRad := by
    intro v hv
    simp only [List.mem_cons, List.not_mem_nil, or_false] at hv
    rcases hv with h | h | h <;> subst h <;> rw [abs_lt] <;>
      constructor <;> norm_num [cfgId]
  exact ⟨by decide, by decide, by decide, hvs,
    (c3_deadband_idempotence cfgId "j" 1 ⟨0, 0⟩ sentZeroState
      [(1 : ℚ)/1000, -(15/10000), 19/10000]
      (by decide) (by decide) (by decide) hvs).1⟩

/-- Claim C10: beyond the radian deadband, `queueJoint` also suppresses a
write whose clamped actuator position (after the default rad-to-pos
mapping and integer rounding into `[posMin, posMax]`) equals the previous
pending or last-sent position for the motor: such a call leaves the whole
bridge state (pending queue, lastSent, flush timer) unchanged and causes
no transmission, even when the radian change is at or above
`deadbandRad`. -/
theorem c10_position_dedup (cfg : BridgeConfig) (s : BridgeState) (j : String)
    (id : ℕ) (p : PendingVal) (v : ℚ)
    (hid : getDxlId cfg j = some id)
    (hprev : prevVal s id = some p)
    (hdead : cfg.deadbandRad ≤ |p.rad - v|)
    (hpos : clampInt ((defaultRadToPos cfg j v : ℤ) : ℚ) cfg.posMin cfg.posMax = p.pos) :
    queueJoint cfg s j v = s ∧
    ∀ oks, (runTicks cfg oks (queueJoint cfg s j v)).2 = (runTicks cfg oks s).2 := by
  have key : queueJoint cfg s j v = s := by
    unfold queueJoint
    rw [hid]
    simp only [hprev, decide_eq_true_eq]
    rw [if_neg (not_lt.mpr hdead)]
    simp only [hpos, decide_eq_true_eq]
    rw [if_pos trivial]
  exact ⟨key, fun oks => by rw [key]⟩

/-- Witness for C10: from `sentZeroState` (last sent `rad = 0`,
position 0), writing `rad = 0.4` — far beyond the deadband — still rounds
to position 0 under `cfgId`, so the call is dropped. -/
theorem c10_position_dedup_witness :
    getDxlId cfgId "j" = some 1 ∧
    prevVal sentZeroState 1 = some ⟨0, 0⟩ ∧
    cfgId.deadbandRad ≤ |(0 : ℚ) - 4/10| ∧
    clampInt ((defaultRadToPos cfgId "j" (4/10) : ℤ) : ℚ) cfgId.posMin cfgId.posMax = 0 ∧
    queueJoint cfgId sentZeroState "j" (4/10) = sentZeroState := by
  have hdead : cfgId.deadbandRad ≤ |(0 : ℚ) - 4/10| := by
    rw [le_abs]
    right
    norm_num [cfgId]
  have hpos : clampInt ((defaultRadToPos cfgId "j" (4/10) : ℤ) : ℚ)
      cfgId.posMin cfgId.posMax = 0 := by
    have h1 : defaultRadToPos cfgId "j" (4/10) = 0 := by
      rw [defaultRadToPos_cfgId]
      rw [show max (0 : ℚ) (min 1023 (4/10)) = 4/10 by
        rw [min_eq_right (by norm_num), max_eq_right (by norm_num)]]
      unfold clampInt jsRound
      rw [show ⌊(4 : ℚ)/10 + 1/2⌋ = 0 from by
        rw [show (4 : ℚ)/10 + 1/2 = 9/10 by norm_num]
        rw [Int.floor_eq_iff] <;> norm_num]
      decide
    rw [h1]
    unfold clampInt jsRound
    rw [show ((0 : ℤ) : ℚ) + 1/2 = 1/2 by norm_num]
    rw [show ⌊(1 : ℚ)/2⌋ = 0 from by rw [Int.floor_eq_iff] <;> norm_num]
    decide
  exact ⟨by decide, by decide, hdead, hpos,
    (c10_position_dedup cfgId sentZeroState "j" 1 ⟨0, 0⟩ (4/10)
      (by decide) (by decide) hdead hpos).1⟩

theorem mapDelete_single_self (k : ℕ) (x : PendingVal) : mapDelete [(k, x)] k = [] := by
  simp [mapDelete]

theorem mapGet_single (k : ℕ) (x : PendingVal) : mapGet [(k, x)] k = some x :=
  mapGet_mapSet_self [] k x

theorem jsRound_intCast (n : ℤ) : jsRound ((n : ℤ) : ℚ) = n := by
  unfold jsRound
  rw [add_comm, Int.floor_add_int]
  norm_num

theorem clampInt_intCast (n lo hi : ℤ) : clampInt ((n : ℤ) : ℚ) lo hi = clampIntZ n lo hi := by
  unfold clampInt clampIntZ
  rw [jsRound_intCast]

/-- Re-clamping the (already clamped) output of the default rad-to-pos map
is the identity, so `queueJoint`'s outer `clampInt` changes nothing. -/
theorem clampInt_defaultRadToPos_idem (cfg : BridgeConfig) (j : String) (v : ℚ) :
    clampInt ((defaultRadToPos cfg j v : ℤ) : ℚ) cfg.posMin cfg.posMax
      = defaultRadToPos cfg j v := by
  rw [clampInt_intCast]
  simp only [defaultRadToPos]
  split_ifs <;> exact clampIntZ_clampInt _ _ _

theorem flushTick_pop (cfg : BridgeConfig) (id : ℕ) (x : PendingVal) :
    flushTick cfg true ⟨true, [(id, x)], [], none, none, true⟩
      = ⟨⟨true, [], [], none, some ⟨0, id, x⟩, true⟩, none, []⟩ := by
  simp [flushTick, scheduleFlush, mapDelete_single_self]

theorem flushTick_select_ok (cfg : BridgeConfig) (id : ℕ) (x : PendingVal) :
    flushTick cfg true ⟨true, [], [], none, some ⟨0, id, x⟩, true⟩
      = ⟨⟨true, [], [], some id, some ⟨1, id, x⟩, true⟩, some (.select id true), []⟩ := by
  simp [flushTick, scheduleFlush]

theorem flushTick_pos_ok (cfg : BridgeConfig) (id : ℕ) (x : PendingVal) :
    flushTick cfg true ⟨true, [], [], some id, some ⟨1, id, x⟩, true⟩
      = ⟨⟨true, [], [(id, x)], some id, none, false⟩,
          some (.position id (clampIntZ x.pos cfg.posMin cfg.posMax) true), []⟩ := by
  simp [flushTick, scheduleFlush, mapGet, mapSet]

/-- Draining a single-entry queue from a fresh connected bridge takes
three ticks: queue pop (starts the SELECT phase), select write, position
write. -/
theorem runTicks_three (cfg : BridgeConfig) (id : ℕ) (x : PendingVal) :
    runTicks cfg [true, true, true] ⟨true, [(id, x)], [], none, none, true⟩
      = (⟨true, [], [(id, x)], some id, none, false⟩,
          [.select id true, .position id (clampIntZ x.pos cfg.posMin cfg.posMax) true]) := by
  simp [runTicks, flushTick_pop, flushTick_select_ok, flushTick_pos_ok]

/-- `queueJoint` acceptance when nothing was stored for the motor. -/
theorem queueJoint_accept_none (cfg : BridgeConfig) (s : BridgeState) (j : String)
    (id : ℕ) (v : ℚ) (hid : getDxlId cfg j = some id)
    (hprev : prevVal s id = none) :
    queueJoint cfg s j v = scheduleFlush { s with
      pending := mapSet (mapDelete s.pending id) id
        ⟨v, clampInt ((defaultRadToPos cfg j v : ℤ) : ℚ) cfg.posMin cfg.posMax⟩ } := by
  unfold queueJoint
  rw [hid]
  simp only [hprev, Bool.false_eq_true, if_false]

/-- `queueJoint` acceptance past both suppression filters. -/
theorem queueJoint_accept_some (cfg : BridgeConfig) (s : BridgeState) (j : String)
    (id : ℕ) (p : PendingVal) (v : ℚ) (hid : getDxlId cfg j = some id)
    (hprev : prevVal s id = some p)
    (hdead : cfg.deadbandRad ≤ |p.rad - v|)
    (hpos : clampInt ((defaultRadToPos cfg j v : ℤ) : ℚ) cfg.posMin cfg.posMax ≠ p.pos) :
    queueJoint cfg s j v = scheduleFlush { s with
      pending := mapSet (mapDelete s.pending id) id
        ⟨v, clampInt ((defaultRadToPos cfg j v : ℤ) : ℚ) cfg.posMin cfg.posMax⟩ } := by
  unfold queueJoint
  rw [hid]
  simp only [hprev]
  rw [decide_eq_false (not_lt.mpr hdead), decide_eq_false (fun h => hpos h.symm)]
  simp only [Bool.false_eq_true, if_false]

theorem cfgId_pos_zero :
    clampInt ((defaultRadToPos cfgId "j" 0 : ℤ) : ℚ) cfgId.posMin cfgId.posMax = 0 := by
  rw [clampInt_defaultRadToPos_idem, defaultRadToPos_cfgId]
  rw [min_eq_right (by norm_num), max_eq_right (by norm_num)]
  unfold clampInt jsRound
  norm_num

theorem cfgId_pos_v2 :
    clampInt ((defaultRadToPos cfgId "j" (14999/10000) : ℤ) : ℚ) cfgId.posMin cfgId.posMax
      = 1 := by
  rw [clampInt_defaultRadToPos_idem, defaultRadToPos_cfgId]
  rw [min_eq_right (by norm_num), max_eq_right (by norm_num)]
  unfold clampInt jsRound
  rw [show (14999 : ℚ)/10000 + 1/2 = 19999/10000 by norm_num]
  norm_num

theorem cfgId_pos_v3 :
    clampInt ((defaultRadToPos cfgId "j" (15009/10000) : ℤ) : ℚ) cfgId.posMin cfgId.posMax
      = 2 := by
  rw [clampInt_defaultRadToPos_idem, defaultRadToPos_cfgId]
  rw [min_eq_right (by norm_num), max_eq_right (by norm_num)]
  unfold clampInt jsRound
  rw [show (15009 : ℚ)/10000 + 1/2 = 20009/10000 by norm_num]
  norm_num

/-- The C2 run reaches the flush with `v2` (not `v3`) stored for motor 1:
`v1 = 0` is accepted, `v2 = 1.4999` replaces it, and `v3 = 1.5009` is
dropped by the deadband against the stored `v2`. -/
theorem c2runState_eq :
    c2runState = ⟨true, [(1, ⟨14999/10000, 1⟩)], [], none, none, true⟩ := by
  unfold c2runState
  have hs1 : queueJoint cfgId freshConnected "j" 0
      = ⟨true, [(1, ⟨0, 0⟩)], [], none, none, true⟩ := by
    rw [queueJoint_accept_none cfgId freshConnected "j" 1 0 (by decide) rfl, cfgId_pos_zero]
    rfl
  have hs2 : queueJoint cfgId ⟨true, [(1, ⟨0, 0⟩)], [], none, none, true⟩ "j" (14999/10000)
      = ⟨true, [(1, ⟨14999/10000, 1⟩)], [], none, none, true⟩ := by
    rw [queueJoint_accept_some cfgId ⟨true, [(1, ⟨0, 0⟩)], [], none, none, true⟩ "j" 1
      ⟨0, 0⟩ (14999/10000) (by decide) rfl
      (by rw [le_abs]; right; norm_num [cfgId])
      (by rw [cfgId_pos_v2]; decide), cfgId_pos_v2]
    rfl
  rw [hs1, hs2]
  exact queueJoint_deadband_drop cfgId ⟨true, [(1, ⟨14999/10000, 1⟩)], [], none, none, true⟩
    "j" 1 ⟨14999/10000, 1⟩ (15009/10000)
    (by decide) rfl (by rw [abs_lt]; constructor <;> norm_num [cfgId])

/-- Claim C2 counterexample: with the default deadband (0.002 rad) and
limits `[0, 1023]`, queueing `v1 = 0`, `v2 = 1.4999`, `v3 = 1.5009` within
one flush interval transmits exactly one position — `1`, the encoding of
`v2` — because `v3` lies within the deadband of the stored `v2` and is
dropped, while `v3`'s own encoding would be `2`.  The claim's promise
"`v3`, never `v1` or `v2`" fails. -/
theorem c2_counterexample :
    posSent (runTicks cfgId [true, true, true] c2runState).2 = [(1, 1)] ∧
    c2runState.pending = [(1, ⟨14999/10000, 1⟩)] ∧
    clampInt ((defaultRadToPos cfgId "j" (15009/10000) : ℤ) : ℚ) cfgId.posMin cfgId.posMax
      = 2 ∧
    (1 : ℤ) ≠ 2 := by
  refine ⟨?_, by rw [c2runState_eq], cfgId_pos_v3, by decide⟩
  rw [c2runState_eq, runTicks_three]
  simp [posSent]
  decide

theorem prevVal_pending (s : BridgeState) (id : ℕ) (q : PendingVal)
    (h : mapGet s.pending id = some q) : prevVal s id = some q := by
  unfold prevVal
  rw [h]

theorem clampIntZ_idem (n lo hi : ℤ) : clampIntZ (clampIntZ n lo hi) lo hi
    = clampIntZ n lo hi := by
  unfold clampIntZ
  rcases le_total lo hi with h | h <;>
    rcases le_total n hi with h1 | h1 <;>
    rcases le_total n lo with h2 | h2 <;>
    simp [max_def, min_def] <;> omega

/-- Claim C2 (amended): from a fresh connected bridge, three writes for
one mapped joint within one flush interval transmit exactly one position
— that of `v3`, the last value written — provided each successive value is
accepted (at least `deadbandRad` away from the stored value, and mapping
to a different actuator position); and re-queuing an accepted value moves
the joint's entry to the end of the pending queue, replacing its stored
value. -/
theorem c2_last_write_wins (cfg : BridgeConfig) (j : String) (id : ℕ) (v1 v2 v3 : ℚ)
    (hid : getDxlId cfg j = some id)
    (h12 : cfg.deadbandRad ≤ |v1 - v2|)
    (h23 : cfg.deadbandRad ≤ |v2 - v3|)
    (hp12 : clampInt ((defaultRadToPos cfg j v1 : ℤ) : ℚ) cfg.posMin cfg.posMax
      ≠ clampInt ((defaultRadToPos cfg j v2 : ℤ) : ℚ) cfg.posMin cfg.posMax)
    (hp23 : clampInt ((defaultRadToPos cfg j v2 : ℤ) : ℚ) cfg.posMin cfg.posMax
      ≠ clampInt ((defaultRadToPos cfg j v3 : ℤ) : ℚ) cfg.posMin cfg.posMax) :
    (queueJoint cfg (queueJoint cfg (queueJoint cfg freshConnected j v1) j v2) j v3).pending
      = [(id, ⟨v3, clampInt ((defaultRadToPos cfg j v3 : ℤ) : ℚ) cfg.posMin cfg.posMax⟩)] ∧
    (runTicks cfg [true, true, true]
        (queueJoint cfg (queueJoint cfg (queueJoint cfg freshConnected j v1) j v2) j v3)).2
      = [Event.select id true,
          Event.position id
            (clampInt ((defaultRadToPos cfg j v3 : ℤ) : ℚ) cfg.posMin cfg.posMax) true] ∧
    posSent (runTicks cfg [true, true, true]
        (queueJoint cfg (queueJoint cfg (queueJoint cfg freshConnected j v1) j v2) j v3)).2
      = [(id, clampInt ((defaultRadToPos cfg j v3 : ℤ) : ℚ) cfg.posMin cfg.posMax)] ∧
    (∀ (s : BridgeState) (q : PendingVal) (v : ℚ),
      mapGet s.pending id = some q →
      cfg.deadbandRad ≤ |q.rad - v| →
      clampInt ((defaultRadToPos cfg j v : ℤ) : ℚ) cfg.posMin cfg.posMax ≠ q.pos →
      (queueJoint cfg s j v).pending
        = mapDelete s.pending id ++
          [(id, ⟨v, clampInt ((defaultRadToPos cfg j v : ℤ) : ℚ) cfg.posMin cfg.posMax⟩)]) := by
  have hs1 : queueJoint cfg freshConnected j v1 = ⟨true,
      [(id, ⟨v1, clampInt ((defaultRadToPos cfg j v1 : ℤ) : ℚ) cfg.posMin cfg.posMax⟩)],
      [], none, none, true⟩ := by
    rw [queueJoint_accept_none cfg freshConnected j id v1 hid rfl]
    rfl
  have hs2 : queueJoint cfg ⟨true,
        [(id, ⟨v1, clampInt ((defaultRadToPos cfg j v1 : ℤ) : ℚ) cfg.posMin cfg.posMax⟩)],
        [], none, none, true⟩ j v2
      = ⟨true,
        [(id, ⟨v2, clampInt ((defaultRadToPos cfg j v2 : ℤ) : ℚ) cfg.posMin cfg.posMax⟩)],
        [], none, none, true⟩ := by
    rw [queueJoint_accept_some cfg ⟨true,
        [(id, ⟨v1, clampInt ((defaultRadToPos cfg j v1 : ℤ) : ℚ) cfg.posMin cfg.posMax⟩)],
        [], none, none, true⟩ j id
      ⟨v1, clampInt ((defaultRadToPos cfg j v1 : ℤ) : ℚ) cfg.posMin cfg.posMax⟩ v2 hid
      (prevVal_pending _ id _ (mapGet_single id _)) h12 (Ne.symm hp12)]
    simp [mapDelete_single_self, mapSet, scheduleFlush]
  have hs3 : queueJoint cfg ⟨true,
        [(id, ⟨v2, clampInt ((defaultRadToPos cfg j v2 : ℤ) : ℚ) cfg.posMin cfg.posMax⟩)],
        [], none, none, true⟩ j v3
      = ⟨true,
        [(id, ⟨v3, clampInt ((defaultRadToPos cfg j v3 : ℤ) : ℚ) cfg.posMin cfg.posMax⟩)],
        [], none, none, true⟩ := by
    rw [queueJoint_accept_some cfg ⟨true,
        [(id, ⟨v2, clampInt ((defaultRadToPos cfg j v2 : ℤ) : ℚ) cfg.posMin cfg.posMax⟩)],
        [], none, none, true⟩ j id
      ⟨v2, clampInt ((defaultRadToPos cfg j v2 : ℤ) : ℚ) cfg.posMin cfg.posMax⟩ v3 hid
      (prevVal_pending _ id _ (mapGet_single id _)) h23 (Ne.symm hp23)]
    simp [mapDelete_single_self, mapSet, scheduleFlush]
  rw [hs1, hs2, hs3]
  refine ⟨rfl, ?_, ?_, ?_⟩
  · rw [runTicks_three]
    simp only [clampIntZ_clampInt]
  · rw [runTicks_three]
    simp only [clampIntZ_clampInt]
    simp [posSent]
  · intro s q v hq hd hp
    rw [queueJoint_accept_some cfg s j id q v hid (prevVal_pending s id q hq) hd hp,
      scheduleFlush_pending]
    exact mapSet_mapDelete_append s.pending id _

/-- Witness for the amended C2 at `v1 = 0`, `v2 = 2`, `v3 = 4` under
`cfgId`: the single transmitted position is `4`, the encoding of `v3`. -/
theorem c2_last_write_wins_witness :
    cfgId.deadbandRad ≤ |(0 : ℚ) - 2| ∧
    cfgId.deadbandRad ≤ |(2 : ℚ) - 4| ∧
    (runTicks cfgId [true, true, true]
        (queueJoint cfgId (queueJoint cfgId
          (queueJoint cfgId freshConnected "j" 0) "j" 2) "j" 4)).2
      = [Event.select 1 true,
          Event.position 1
            (clampInt ((defaultRadToPos cfgId "j" 4 : ℤ) : ℚ) cfgId.posMin cfgId.posMax)
            true] := by
  have h12 : cfgId.deadbandRad ≤ |(0 : ℚ) - 2| := by
    rw [le_abs]; right; norm_num [cfgId]
  have h23 : cfgId.deadbandRad ≤ |(2 : ℚ) - 4| := by
    rw [le_abs]; right; norm_num [cfgId]
  have e2 : clampInt ((defaultRadToPos cfgId "j" 2 : ℤ) : ℚ) cfgId.posMin cfgId.posMax
      = 2 := by
    rw [clampInt_defaultRadToPos_idem, defaultRadToPos_cfgId]
    rw [min_eq_right (by norm_num), max_eq_right (by norm_num)]
    unfold clampInt jsRound
    norm_num
  have e4 : clampInt ((defaultRadToPos cfgId "j" 4 : ℤ) : ℚ) cfgId.posMin cfgId.posMax
      = 4 := by
    rw [clampInt_defaultRadToPos_idem, defaultRadToPos_cfgId]
    rw [min_eq_right (by norm_num), max_eq_right (by norm_num)]
    unfold clampInt jsRound
    norm_num
  exact ⟨h12, h23,
    (c2_last_write_wins cfgId "j" 1 0 2 4 (by decide) h12 h23
      (by rw [cfgId_pos_zero, e2]; decide) (by rw [e2, e4]; decide)).2.1⟩

/-- Claim C6: whenever the serial write of a flush tick rejects, the
session is marked disconnected, the in-flight value is restored into the
pending queue (at the end, so it is retried after reconnection), and the
status callback is notified with `connected = false` — covering all three
write sites (select phase, position phase, direct position for the
currently-addressed motor).  The failure never propagates to the caller of
`queueJoint`/`sendJoints`: those are total state transformers and the tick
runs from a timer, not from the caller. -/
theorem c6_write_failure_recovery (cfg : BridgeConfig) (s : BridgeState)
    (hconn : s.connected = true) :
    (∀ tx, s.txState = some tx → tx.phase = 0 →
      (flushTick cfg false s).state.connected = false ∧
      (flushTick cfg false s).statuses = [false] ∧
      (flushTick cfg false s).state.txState = none ∧
      mapGet (flushTick cfg false s).state.pending tx.id = some tx.val ∧
      (flushTick cfg false s).state.pending.getLast? = some (tx.id, tx.val) ∧
      (flushTick cfg false s).event = some (.select tx.id false)) ∧
    (∀ tx, s.txState = some tx → tx.phase ≠ 0 →
      (flushTick cfg false s).state.connected = false ∧
      (flushTick cfg false s).statuses = [false] ∧
      (flushTick cfg false s).state.txState = none ∧
      mapGet (flushTick cfg false s).state.pending tx.id
        = some ((mapGet s.pending tx.id).getD tx.val) ∧
      (flushTick cfg false s).state.pending.getLast?
        = some (tx.id, (mapGet s.pending tx.id).getD tx.val) ∧
      (flushTick cfg false s).event = some (.position tx.id
        (clampIntZ ((mapGet s.pending tx.id).getD tx.val).pos cfg.posMin cfg.posMax)
        false)) ∧
    (∀ id val, s.txState = none → s.pending.getLast? = some (id, val) →
      s.currentTarget = some id →
      (flushTick cfg false s).state.connected = false ∧
      (flushTick cfg false s).statuses = [false] ∧
      mapGet (flushTick cfg false s).state.pending id = some val ∧
      (flushTick cfg false s).state.pending.getLast? = some (id, val) ∧
      (flushTick cfg false s).event = some (.position id
        (clampIntZ val.pos cfg.posMin cfg.posMax) false)) := by
  refine ⟨?_, ?_, ?_⟩
  · intro tx htx hph
    simp only [flushTick, hconn, htx, hph]
    simp [mapGet_mapSet_self, getLast?_mapSet_mapDelete]
  · intro tx htx hph
    simp only [flushTick, hconn, htx, if_neg hph]
    cases hlatest : mapGet s.pending tx.id with
    | none =>
      simp [hlatest, mapGet_mapSet_self, getLast?_mapSet_mapDelete]
    | some latest =>
      simp [hlatest, mapGet_mapSet_self, getLast?_mapSet_mapDelete]
  · intro id val htx hlast hcur
    simp only [flushTick, hconn, htx, hlast, hcur]
    simp [mapGet_mapSet_self, getLast?_mapSet_mapDelete]

/-- Witness for C6: a pending SELECT for motor 1 whose write rejects. -/
theorem c6_write_failure_recovery_witness :
    selPhaseState.connected = true ∧
    selPhaseState.txState = some ⟨0, 1, ⟨0, 5⟩⟩ ∧
    (flushTick cfgId false selPhaseState).state.connected = false ∧
    (flushTick cfgId false selPhaseState).statuses = [false] ∧
    mapGet (flushTick cfgId false selPhaseState).state.pending 1 = some ⟨0, 5⟩ ∧
    (flushTick cfgId false selPhaseState).event = some (.select 1 false) :=
  have h := (c6_write_failure_recovery cfgId selPhaseState rfl).1 ⟨0, 1, ⟨0, 5⟩⟩ rfl rfl
  ⟨rfl, rfl, h.1, h.2.1, h.2.2.2.1, h.2.2.2.2.2⟩

theorem ite_scheduleFlush_connected (P : Prop) [Decidable P] (s : BridgeState) :
    (if P then scheduleFlush s else s).connected = s.connected := by
  split_ifs with h
  exacts [scheduleFlush_connected s, rfl]

theorem ite_scheduleFlush_currentTarget (P : Prop) [Decidable P] (s : BridgeState) :
    (if P then scheduleFlush s else s).currentTarget = s.currentTarget := by
  split_ifs with h
  exacts [scheduleFlush_currentTarget s, rfl]

theorem ite_scheduleFlush_txState (P : Prop) [Decidable P] (s : BridgeState) :
    (if P then scheduleFlush s else s).txState = s.txState := by
  split_ifs with h
  exacts [scheduleFlush_txState s, rfl]

theorem ite_scheduleFlush_pending (P : Prop) [Decidable P] (s : BridgeState) :
    (if P then scheduleFlush s else s).pending = s.pending := by
  split_ifs with h
  exacts [scheduleFlush_pending s, rfl]

theorem flushTick_disconnected (cfg : BridgeConfig) (ok : Bool) (s : BridgeState)
    (h : s.connected = false) :
    flushTick cfg ok s = ⟨{ s with flushTimer := false }, none, []⟩ := by
  simp [flushTick, h]

/-- Invariant induction for the select/position protocol: starting from
any state whose addressed motor matches the checker's accumulator (and
whose POS-phase cursor, if any, addresses the addressed motor), every
trace the flush machine produces passes `posGuarded`. -/
theorem posGuarded_runTicks (cfg : BridgeConfig) :
    ∀ (oks : List Bool) (s : BridgeState) (c : Option ℕ),
      (s.connected = true → s.currentTarget = c) →
      (s.connected = true → ∀ tx, s.txState = some tx → tx.phase ≠ 0 →
        s.currentTarget = some tx.id) →
      posGuarded c (runTicks cfg oks s).2 = true := by
  intro oks
  induction oks with
  | nil =>
    intro s c h1 h2
    rfl
  | cons ok rest ih =>
    intro s c h1 h2
    by_cases ht : s.flushTimer = true
    case neg =>
      rw [runTicks, if_pos (by simpa using ht)]
      rfl
    case pos =>
    rw [runTicks, if_neg (by simp [ht])]
    by_cases hc : s.connected = true
    case neg =>
      have hcf : s.connected = false := by simpa using hc
      rw [flushTick_disconnected cfg ok s hcf]
      simp only [Option.toList_none, List.nil_append]
      exact ih _ c (by intro h; simp [hcf] at h) (by intro h; simp [hcf] at h)
    case pos =>
    cases htx : s.txState with
    | some tx =>
      by_cases hph : tx.phase = 0
      · cases ok with
        | true =>
          have heq : flushTick cfg true s
              = ⟨{ s with
                    currentTarget := some tx.id,
                    txState := some { tx with phase := 1 },
                    flushTimer := true },
                  some (.select tx.id true), []⟩ := by
            simp [flushTick, scheduleFlush, hc, htx, hph]
          rw [heq]
          simp only [Option.toList_some, List.singleton_append, posGuarded]
          exact ih _ (some tx.id) (fun _ => rfl)
            (by
              intro _ tx2 h2' _
              injection h2' with h3
              rw [← h3])
        | false =>
          have heq : flushTick cfg false s
              = ⟨{ s with
                    connected := false,
                    pending := mapSet (mapDelete s.pending tx.id) tx.id tx.val,
                    txState := none,
                    flushTimer := false },
                  some (.select tx.id false), [false]⟩ := by
            simp [flushTick, scheduleFlush, hc, htx, hph]
          rw [heq]
          simp only [Option.toList_some, List.singleton_append, posGuarded]
          exact ih _ none (by intro h; simp at h) (by intro h; simp at h)
      · have hcur : s.currentTarget = some tx.id := h2 hc tx htx hph
        have hceq : c = some tx.id := by rw [← h1 hc, hcur]
        cases ok with
        | true =>
          have hev : (flushTick cfg true s).event
              = some (.position tx.id
                  (clampIntZ ((mapGet s.pending tx.id).getD tx.val).pos
                    cfg.posMin cfg.posMax) true) := by
            cases hlatest : mapGet s.pending tx.id with
            | none => simp [flushTick, hc, htx, if_neg hph, hlatest,
                ite_scheduleFlush_pending]
            | some latest => simp [flushTick, hc, htx, if_neg hph, hlatest,
                ite_scheduleFlush_pending]
          have hct : (flushTick cfg true s).state.currentTarget = s.currentTarget := by
            cases hlatest : mapGet s.pending tx.id with
            | none =>
              simp only [flushTick, hc, htx, if_neg hph, hlatest]
              split_ifs <;> first | rfl | exact absurd trivial (by assumption) | simp [scheduleFlush]
            | some latest =>
              simp only [flushTick, hc, htx, if_neg hph, hlatest]
              split_ifs <;> first | rfl | exact absurd trivial (by assumption) | simp [scheduleFlush]
          have htx2 : (flushTick cfg true s).state.txState = none := by
            cases hlatest : mapGet s.pending tx.id with
            | none =>
              simp only [flushTick, hc, htx, if_neg hph, hlatest]
              split_ifs <;> first | rfl | exact absurd trivial (by assumption) | simp [scheduleFlush]
            | some latest =>
              simp only [flushTick, hc, htx, if_neg hph, hlatest]
              split_ifs <;> first | rfl | exact absurd trivial (by assumption) | simp [scheduleFlush]
          dsimp only
          rw [hev]
          simp only [Option.toList_some, List.singleton_append, posGuarded,
            Bool.and_eq_true, decide_eq_true_eq]
          refine ⟨hceq, ?_⟩
          exact ih _ c (fun _ => by rw [hct, hcur, hceq])
            (by
              intro _ tx2 h2' _
              rw [htx2] at h2'
              exact absurd h2' (by simp))
        | false =>
          have hev : (flushTick cfg false s).event
              = some (.position tx.id
                  (clampIntZ ((mapGet s.pending tx.id).getD tx.val).pos
                    cfg.posMin cfg.posMax) false) := by
            cases hlatest : mapGet s.pending tx.id with
            | none => simp [flushTick, hc, htx, if_neg hph, hlatest]
            | some latest => simp [flushTick, hc, htx, if_neg hph, hlatest]
          have hcf : (flushTick cfg false s).state.connected = false := by
            cases hlatest : mapGet s.pending tx.id with
            | none => simp [flushTick, scheduleFlush, hc, htx, if_neg hph, hlatest]
            | some latest => simp [flushTick, scheduleFlush, hc, htx, if_neg hph, hlatest]
          dsimp only
          rw [hev]
          simp only [Option.toList_some, List.singleton_append, posGuarded,
            Bool.and_eq_true, decide_eq_true_eq]
          refine ⟨hceq, ?_⟩
          exact ih _ c (by intro h; simp [hcf] at h) (by intro h; simp [hcf] at h)
    | none =>
      cases hlast : s.pending.getLast? with
      | none =>
        have heq : flushTick cfg ok s
            = ⟨{ s with flushTimer := false }, none, []⟩ := by
          have hpempty : s.pending = [] := by
            simpa using hlast
          simp [flushTick, scheduleFlush, hc, htx, hlast, hpempty]
        rw [heq]
        simp only [Option.toList_none, List.nil_append]
        exact ih _ c (fun h => h1 h) (fun h => h2 h)
      | some entry =>
        obtain ⟨id0, val0⟩ := entry
        by_cases hcur : s.currentTarget = some id0
        · have hceq : c = some id0 := by rw [← h1 hc, hcur]
          cases ok with
          | true =>
            have hev : (flushTick cfg true s).event
                = some (.position id0 (clampIntZ val0.pos cfg.posMin cfg.posMax) true) := by
              simp [flushTick, hc, htx, hlast, hcur]
            have hct : (flushTick cfg true s).state.currentTarget = s.currentTarget := by
              simp only [flushTick, hc, htx, hlast, hcur]
              split_ifs <;> first | rfl | exact absurd trivial (by assumption) | simp [scheduleFlush]
            have htx2 : (flushTick cfg true s).state.txState = none := by
              simp only [flushTick, hc, htx, hlast, hcur]
              split_ifs <;> first | rfl | exact absurd trivial (by assumption) | simp [scheduleFlush]
            dsimp only
            rw [hev]
            simp only [Option.toList_some, List.singleton_append, posGuarded,
              Bool.and_eq_true, decide_eq_true_eq]
            refine ⟨hceq, ?_⟩
            exact ih _ c (fun _ => by rw [hct, hcur, hceq])
              (by
                intro _ tx2 h2' _
                rw [htx2] at h2'
                exact absurd h2' (by simp))
          | false =>
            have hev : (flushTick cfg false s).event
                = some (.position id0 (clampIntZ val0.pos cfg.posMin cfg.posMax) false) := by
              simp [flushTick, hc, htx, hlast, hcur]
            have hcf : (flushTick cfg false s).state.connected = false := by
              simp [flushTick, scheduleFlush, hc, htx, hlast, hcur]
            dsimp only
            rw [hev]
            simp only [Option.toList_some, List.singleton_append, posGuarded,
              Bool.and_eq_true, decide_eq_true_eq]
            refine ⟨hceq, ?_⟩
            exact ih _ c (by intro h; simp [hcf] at h) (by intro h; simp [hcf] at h)
        · have heq : flushTick cfg ok s
              = ⟨{ s with
                    pending := mapDelete s.pending id0,
                    txState := some ⟨0, id0, val0⟩,
                    flushTimer := true },
                  none, []⟩ := by
            simp [flushTick, scheduleFlush, hc, htx, hlast, hcur]
          rw [heq]
          simp only [Option.toList_none, List.nil_append]
          exact ih _ c (fun _ => h1 hc)
            (by
              intro _ tx2 h2' hph2
              injection h2' with h3
              rw [← h3] at hph2
              exact absurd rfl hph2)

/-- Claim C4: the serial flush machine's protocol invariants.  At most one
transmit cursor exists at a time by construction (`txState` is a single
`Option TxState` slot).  (1) While a `TxState` exists, a tick services
only that motor: any write it attempts addresses `tx.id`, and the pending
entries of every other motor are untouched.  (2) Along any run from a
fresh bridge (no cursor, no addressed motor), a position packet for motor
`M` is only transmitted while `M` is the addressed motor — i.e. after the
immediately preceding select packet for `M` succeeded, or consecutively
for the same motor with re-selection skipped (`posGuarded` checks exactly
this on the trace). -/
theorem c4_select_position_invariants (cfg : BridgeConfig) :
    (∀ (ok : Bool) (s : BridgeState) (tx : TxState), s.txState = some tx →
      (∀ e, (flushTick cfg ok s).event = some e → e.motor = tx.id) ∧
      (∀ k, k ≠ tx.id →
        mapGet (flushTick cfg ok s).state.pending k = mapGet s.pending k)) ∧
    (∀ (oks : List Bool) (s : BridgeState),
      s.txState = none → s.currentTarget = none →
      posGuarded none (runTicks cfg oks s).2 = true) := by
  constructor
  · intro ok s tx htx
    by_cases hc : s.connected = true
    case neg =>
      rw [flushTick_disconnected cfg ok s (by simpa using hc)]
      exact ⟨fun e he => by simp at he, fun k hk => rfl⟩
    case pos =>
    by_cases hph : tx.phase = 0
    · cases ok with
      | true =>
        have heq : flushTick cfg true s
            = ⟨{ s with
                  currentTarget := some tx.id,
                  txState := some { tx with phase := 1 },
                  flushTimer := true },
                some (.select tx.id true), []⟩ := by
          simp [flushTick, scheduleFlush, hc, htx, hph]
        rw [heq]
        exact ⟨fun e he => by injection he with h; rw [← h]; rfl, fun k hk => rfl⟩
      | false =>
        have heq : flushTick cfg false s
            = ⟨{ s with
                  connected := false,
                  pending := mapSet (mapDelete s.pending tx.id) tx.id tx.val,
                  txState := none,
                  flushTimer := false },
                some (.select tx.id false), [false]⟩ := by
          simp [flushTick, scheduleFlush, hc, htx, hph]
        rw [heq]
        refine ⟨fun e he => by injection he with h; rw [← h]; rfl, fun k hk => ?_⟩
        show mapGet (mapSet (mapDelete s.pending tx.id) tx.id tx.val) k = mapGet s.pending k
        rw [mapGet_mapSet_ne _ _ _ _ hk, mapGet_mapDelete_ne _ _ _ hk]
    · constructor
      · intro e he
        cases ok with
        | true =>
          have hev : (flushTick cfg true s).event
              = some (.position tx.id
                  (clampIntZ ((mapGet s.pending tx.id).getD tx.val).pos
                    cfg.posMin cfg.posMax) true) := by
            cases hlatest : mapGet s.pending tx.id with
            | none => simp [flushTick, hc, htx, if_neg hph, hlatest]
            | some latest => simp [flushTick, hc, htx, if_neg hph, hlatest]
          rw [hev] at he
          injection he with h
          rw [← h]
          rfl
        | false =>
          have hev : (flushTick cfg false s).event
              = some (.position tx.id
                  (clampIntZ ((mapGet s.pending tx.id).getD tx.val).pos
                    cfg.posMin cfg.posMax) false) := by
            cases hlatest : mapGet s.pending tx.id with
            | none => simp [flushTick, hc, htx, if_neg hph, hlatest]
            | some latest => simp [flushTick, hc, htx, if_neg hph, hlatest]
          rw [hev] at he
          injection he with h
          rw [← h]
          rfl
      · intro k hk
        cases ok with
        | true =>
          cases hlatest : mapGet s.pending tx.id with
          | none =>
            have hpend : (flushTick cfg true s).state.pending = s.pending := by
              simp only [flushTick, hc, htx, if_neg hph, hlatest]
              split_ifs <;> first | rfl | exact absurd trivial (by assumption) | exact (by assumption : False).elim |
                simp [scheduleFlush]
            rw [hpend]
          | some latest =>
            have hpend : (flushTick cfg true s).state.pending
                = mapDelete s.pending tx.id := by
              simp only [flushTick, hc, htx, if_neg hph, hlatest]
              split_ifs <;> first | rfl | exact absurd trivial (by assumption) | exact (by assumption : False).elim |
                simp [scheduleFlush]
            rw [hpend, mapGet_mapDelete_ne _ _ _ hk]
        | false =>
          cases hlatest : mapGet s.pending tx.id with
          | none =>
            have hpend : (flushTick cfg false s).state.pending
                = mapSet (mapDelete s.pending tx.id) tx.id tx.val := by
              simp only [flushTick, hc, htx, if_neg hph, hlatest]
              split_ifs <;> first | rfl | exact absurd trivial (by assumption) | exact (by assumption : False).elim |
                simp [scheduleFlush]
            rw [hpend, mapGet_mapSet_ne _ _ _ _ hk, mapGet_mapDelete_ne _ _ _ hk]
          | some latest =>
            have hpend : (flushTick cfg false s).state.pending
                = mapSet (mapDelete (mapDelete s.pending tx.id) tx.id) tx.id latest := by
              simp only [flushTick, hc, htx, if_neg hph, hlatest]
              split_ifs <;> first | rfl | exact absurd trivial (by assumption) | exact (by assumption : False).elim |
                simp [scheduleFlush]
            rw [hpend, mapGet_mapSet_ne _ _ _ _ hk, mapGet_mapDelete_ne _ _ _ hk,
              mapGet_mapDelete_ne _ _ _ hk]
  · intro oks s htxn hcur
    refine posGuarded_runTicks cfg oks s none (fun _ => hcur) ?_
    intro _ tx h _
    rw [htxn] at h
    exact absurd h (by simp)

/-- Witness for C4: with a SELECT in flight for motor 1, a tick leaves
motor 2's pending entry untouched; and a three-tick run from a fresh
bridge with one queued motor yields a select-guarded trace. -/
theorem c4_select_position_invariants_witness :
    selPhaseState.txState = some ⟨0, 1, ⟨0, 5⟩⟩ ∧
    (2 : ℕ) ≠ 1 ∧
    mapGet (flushTick cfgId true selPhaseState).state.pending 2
      = mapGet selPhaseState.pending 2 ∧
    posGuarded none
      (runTicks cfgId [true, true, true] ⟨true, [(1, ⟨0, 5⟩)], [], none, none, true⟩).2
      = true :=
  ⟨rfl, by decide,
    ((c4_select_position_invariants cfgId).1 true selPhaseState
      ⟨0, 1, ⟨0, 5⟩⟩ rfl).2 2 (by decide),
    (c4_select_position_invariants cfgId).2 [true, true, true]
      ⟨true, [(1, ⟨0, 5⟩)], [], none, none, true⟩ rfl rfl⟩

theorem insertDesc_perm (x : String × ℚ) :
    ∀ l : List (String × ℚ), List.Perm (insertDesc x l) (x :: l)
  | [] => List.Perm.refl _
  | y :: ys => by
    unfold insertDesc
    split_ifs with h
    · exact List.Perm.refl _
    · exact ((insertDesc_perm x ys).cons y).trans (List.Perm.swap x y ys)

theorem sortByScoreDesc_perm :
    ∀ l : List (String × ℚ), List.Perm (sortByScoreDesc l) l
  | [] => List.Perm.refl _
  | x :: xs => (insertDesc_perm x (sortByScoreDesc xs)).trans
      ((sortByScoreDesc_perm xs).cons x)

theorem insertDesc_pairwise (x : String × ℚ) :
    ∀ l : List (String × ℚ), l.Pairwise (fun a b => b.2 ≤ a.2) →
      (insertDesc x l).Pairwise (fun a b => b.2 ≤ a.2)
  | [], _ => by simp [insertDesc]
  | y :: ys, hp => by
    unfold insertDesc
    split_ifs with h
    · refine List.Pairwise.cons ?_ hp
      intro z hz
      rcases List.mem_cons.mp hz with rfl | hz2
      · exact h
      · exact le_trans (List.rel_of_pairwise_cons hp hz2) h
    · refine List.Pairwise.cons ?_ (insertDesc_pairwise x ys hp.of_cons)
      intro z hz
      rcases List.mem_cons.mp ((insertDesc_perm x ys).mem_iff.mp hz) with rfl | hz2
      · exact le_of_lt (lt_of_not_le h)
      · exact List.rel_of_pairwise_cons hp hz2

theorem sortByScoreDesc_pairwise :
    ∀ l : List (String × ℚ), (sortByScoreDesc l).Pairwise (fun a b => b.2 ≤ a.2)
  | [] => List.Pairwise.nil
  | x :: xs => insertDesc_pairwise x (sortByScoreDesc xs) (sortByScoreDesc_pairwise xs)

theorem resolveJointTarget_reaches_similarity (keys : List String) (req : String)
    (m : Option (List (String × String)))
    (h1 : keys ≠ [])
    (h2 : mappedName req m ∉ keys)
    (h3 : ∀ k ∈ keys, normKey k ≠ normKey (mappedName req m))
    (h4 : ∀ k ∈ keys,
      (strIncludes (normKey k) (normKey (mappedName req m)) ||
        strIncludes (normKey (mappedName req m)) (normKey k)) = false) :
    resolveJointTarget keys req m = similarityStage keys (mappedName req m) := by
  have hf1 : List.find? (fun k => decide (normKey k = normKey (mappedName req m))) keys
      = none :=
    List.find?_eq_none.mpr (fun k hk => by simp [h3 k hk])
  have hf2 : List.find? (fun k =>
        strIncludes (normKey k) (normKey (mappedName req m)) ||
        strIncludes (normKey (mappedName req m)) (normKey k)) keys
      = none :=
    List.find?_eq_none.mpr (fun k hk => by simp [h4 k hk])
  unfold resolveJointTarget
  rw [if_neg (by simp [List.isEmpty_iff, h1])]
  rw [if_neg h2]
  simp only [hf1, hf2]

/-- Claim C1 (amended): resolution is deterministic (a pure function of
the live joint set, requested name and map), and whenever the similarity
stage is reached (no explicit-map/exact/normalized/substring match) with
the best score at or above the 0.78 floor and the top two scores within
0.03 of each other, the resolver returns `joint: null` with reason
`ambiguous` rather than an arbitrary pick.  `k1` attains the maximum
score; `k2`, at a different position of the joint list, comes within 0.03
of it, so the second entry of the sorted candidate list does too. -/
theorem c1_similarity_tie_rejected (pre post : List String) (k1 k2 req : String)
    (m : Option (List (String × String)))
    (hk2 : k2 ∈ pre ++ post)
    (hnotmem : mappedName req m ∉ pre ++ k1 :: post)
    (hnorm : ∀ k ∈ pre ++ k1 :: post, normKey k ≠ normKey (mappedName req m))
    (hincl : ∀ k ∈ pre ++ k1 :: post,
      (strIncludes (normKey k) (normKey (mappedName req m)) ||
        strIncludes (normKey (mappedName req m)) (normKey k)) = false)
    (hmax : ∀ k ∈ pre ++ k1 :: post,
      simScore (mappedName req m) k ≤ simScore (mappedName req m) k1)
    (hthr : 78/100 ≤ simScore (mappedName req m) k1)
    (hclose : simScore (mappedName req m) k1 - simScore (mappedName req m) k2 < 3/100) :
    (resolveJointTarget (pre ++ k1 :: post) req m).joint = none ∧
    (resolveJointTarget (pre ++ k1 :: post) req m).reason = "ambiguous" := by
  have hk1 : k1 ∈ pre ++ k1 :: post := List.mem_append_right _ (List.mem_cons_self _ _)
  have hk2' : k2 ∈ pre ++ k1 :: post := by
    rcases List.mem_append.mp hk2 with h | h
    · exact List.mem_append_left _ h
    · exact List.mem_append_right _ (List.mem_cons_of_mem _ h)
  rw [resolveJointTarget_reaches_similarity (pre ++ k1 :: post) req m
    (List.ne_nil_of_mem hk1) hnotmem hnorm hincl]
  have hperm := sortByScoreDesc_perm ((pre ++ k1 :: post).map
    (fun name => (name, simScore (mappedName req m) name)))
  have hsorted := sortByScoreDesc_pairwise ((pre ++ k1 :: post).map
    (fun name => (name, simScore (mappedName req m) name)))
  have hlen : 2 ≤ (sortByScoreDesc ((pre ++ k1 :: post).map
      (fun name => (name, simScore (mappedName req m) name)))).length := by
    rw [hperm.length_eq, List.length_map, List.length_append, List.length_cons]
    have := List.length_pos_of_mem hk2
    rw [List.length_append] at this
    omega
  obtain ⟨b, d2, rest, hdeq⟩ : ∃ b d2 rest,
      sortByScoreDesc ((pre ++ k1 :: post).map
        (fun name => (name, simScore (mappedName req m) name))) = b :: d2 :: rest := by
    rcases hde : sortByScoreDesc ((pre ++ k1 :: post).map
        (fun name => (name, simScore (mappedName req m) name))) with _ | ⟨b, _ | ⟨d2, rest⟩⟩
    · rw [hde] at hlen; simp at hlen
    · rw [hde] at hlen; simp at hlen
    · exact ⟨b, d2, rest, rfl⟩
  rw [hdeq] at hperm hsorted
  -- the head is the maximum score, equal to k1's score
  have hball : ∀ z ∈ b :: d2 :: rest, z.2 ≤ b.2 := by
    intro z hz
    rcases List.mem_cons.mp hz with rfl | hz2
    · exact le_refl _
    · exact List.rel_of_pairwise_cons hsorted hz2
  have he1mem : (k1, simScore (mappedName req m) k1) ∈ (pre ++ k1 :: post).map
      (fun name => (name, simScore (mappedName req m) name)) :=
    List.mem_map_of_mem _ hk1
  have he2mem : (k2, simScore (mappedName req m) k2) ∈ (pre ++ k1 :: post).map
      (fun name => (name, simScore (mappedName req m) name)) :=
    List.mem_map_of_mem _ hk2'
  have hb_le : b.2 ≤ simScore (mappedName req m) k1 := by
    rcases List.mem_map.mp (hperm.mem_iff.mp (List.mem_cons_self _ _)) with ⟨k, hkmem, hkeq⟩
    rw [← hkeq]
    exact hmax k hkmem
  have hge : simScore (mappedName req m) k1 ≤ b.2 :=
    hball _ (hperm.mem_iff.mpr he1mem)
  have hbeq : b.2 = simScore (mappedName req m) k1 := le_antisymm hb_le hge
  -- an entry scoring at least k2's score sits in the tail: the list holds
  -- at least two such entries (k1's and k2's), and the head is only one
  have hcnt2 : 2 ≤ ((pre ++ k1 :: post).map
      (fun name => (name, simScore (mappedName req m) name))).countP
        (fun z => decide (simScore (mappedName req m) k2 ≤ z.2)) := by
    rw [List.map_append, List.map_cons, List.countP_append, List.countP_cons]
    have hp1 : decide (simScore (mappedName req m) k2
        ≤ simScore (mappedName req m) k1) = true :=
      decide_eq_true (hmax k2 hk2')
    have hpos : 0 < (pre.map (fun name => (name, simScore (mappedName req m) name))).countP
          (fun z => decide (simScore (mappedName req m) k2 ≤ z.2))
        + (post.map (fun name => (name, simScore (mappedName req m) name))).countP
          (fun z => decide (simScore (mappedName req m) k2 ≤ z.2)) := by
      rw [← List.countP_append, ← List.map_append]
      refine List.countP_pos.mpr ⟨(k2, simScore (mappedName req m) k2),
        List.mem_map_of_mem _ hk2, ?_⟩
      exact decide_eq_true (le_refl _)
    rw [if_pos hp1]
    omega
  rw [← hperm.countP_eq] at hcnt2
  rw [List.countP_cons] at hcnt2
  have hpos2 : 0 < (d2 :: rest).countP
      (fun z => decide (simScore (mappedName req m) k2 ≤ z.2)) := by
    split_ifs at hcnt2 <;> omega
  obtain ⟨e, hetl, hpe⟩ := List.countP_pos.mp hpos2
  have he2 : simScore (mappedName req m) k2 ≤ e.2 := of_decide_eq_true hpe
  have hd2 : simScore (mappedName req m) k2 ≤ d2.2 := by
    rcases List.mem_cons.mp hetl with rfl | hrest
    · exact he2
    · exact le_trans he2 (List.rel_of_pairwise_cons hsorted.of_cons hrest)
  have hd2b : d2.2 ≤ b.2 :=
    List.rel_of_pairwise_cons hsorted (List.mem_cons_self _ _)
  have hamb : |b.2 - d2.2| < 3/100 := by
    rw [abs_lt]
    constructor
    · linarith
    · have : b.2 - d2.2 ≤ simScore (mappedName req m) k1
          - simScore (mappedName req m) k2 := by
        rw [hbeq]
        linarith
      linarith
  have hscored : simScored (pre ++ k1 :: post) (mappedName req m)
      = b :: d2 :: rest.take 3 := by
    unfold simScored
    rw [hdeq]
    rfl
  unfold similarityStage
  rw [hscored]
  dsimp only
  rw [if_neg (not_lt.mpr (hbeq ▸ hthr))]
  rw [if_pos hamb]
  exact ⟨rfl, rfl⟩

/-- Witness for the amended C1: joints `["b_a_c", "a_c_b"]` with request
`"a_b_c"` reach the similarity stage with both candidates scoring exactly
`21/25 = 0.84` (token sets identical, edit distance 2 of 5), a tie above
the 0.78 floor — the resolver answers `joint: null`, reason `ambiguous`. -/
theorem c1_similarity_tie_rejected_witness :
    ("a_c_b" ∈ ([] : List String) ++ ["a_c_b"]) ∧
    mappedName "a_b_c" none ∉ ([] : List String) ++ "b_a_c" :: ["a_c_b"] ∧
    78/100 ≤ simScore (mappedName "a_b_c" none) "b_a_c" ∧
    simScore (mappedName "a_b_c" none) "b_a_c"
      - simScore (mappedName "a_b_c" none) "a_c_b" < 3/100 ∧
    (resolveJointTarget (([] : List String) ++ "b_a_c" :: ["a_c_b"]) "a_b_c" none).joint
      = none ∧
    (resolveJointTarget (([] : List String) ++ "b_a_c" :: ["a_c_b"]) "a_b_c" none).reason
      = "ambiguous" := by
  have hs1 : simScore (mappedName "a_b_c" none) "b_a_c" = 21/25 := by
    show (6 : ℚ)/10 * tokenSim "a_b_c" "b_a_c" + 4/10 * editSim "a_b_c" "b_a_c" = 21/25
    rw [show tokenSim "a_b_c" "b_a_c" = ((3 : ℕ) : ℚ)/((3 : ℕ) : ℚ) from rfl,
      show editSim "a_b_c" "b_a_c" = 1 - ((2 : ℕ) : ℚ)/((5 : ℕ) : ℚ) from rfl]
    norm_num
  have hs2 : simScore (mappedName "a_b_c" none) "a_c_b" = 21/25 := by
    show (6 : ℚ)/10 * tokenSim "a_b_c" "a_c_b" + 4/10 * editSim "a_b_c" "a_c_b" = 21/25
    rw [show tokenSim "a_b_c" "a_c_b" = ((3 : ℕ) : ℚ)/((3 : ℕ) : ℚ) from rfl,
      show editSim "a_b_c" "a_c_b" = 1 - ((2 : ℕ) : ℚ)/((5 : ℕ) : ℚ) from rfl]
    norm_num
  have hmax : ∀ k ∈ ([] : List String) ++ "b_a_c" :: ["a_c_b"],
      simScore (mappedName "a_b_c" none) k
        ≤ simScore (mappedName "a_b_c" none) "b_a_c" := by
    intro k hk
    simp only [List.nil_append, List.mem_cons, List.not_mem_nil, or_false] at hk
    rcases hk with rfl | rfl
    · exact le_refl _
    · rw [hs1, hs2]
  have hthr : 78/100 ≤ simScore (mappedName "a_b_c" none) "b_a_c" := by
    rw [hs1]
    norm_num
  have hclose : simScore (mappedName "a_b_c" none) "b_a_c"
      - simScore (mappedName "a_b_c" none) "a_c_b" < 3/100 := by
    rw [hs1, hs2]
    norm_num
  have hmain := c1_similarity_tie_rejected [] ["a_c_b"] "b_a_c" "a_c_b" "a_b_c" none
    (by decide) (by decide) (by decide) (by decide) hmax hthr hclose
  exact ⟨by decide, by decide, hthr, hclose, hmain.1, hmain.2⟩

end Mechaverse
